import Mathlib

/-!
Monastery360 front-end: carousel engine, modal lifecycle, directions link and
dark-mode preference.

A shallow embedding of the browser script of the repository.

* `src/server.js`, lines 27-87: the infinite carousel (clone loop, `moveNext`,
  `movePrev`, `startCarousel`, `stopCarousel`).
* `src/script.js`, lines 15-57 and 129-145: the modal system (`showModal`,
  `hideModal`, the dismissal listeners).
* `src/script.js`, lines 251-271: `openGoogleMapsDirections`.
* `src/script.js`, lines 490-520: `initDarkMode` and the click listener of
  the dark-mode toggle.

Browser state that the script mutates (module-level `let` variables, inline
styles, the children of a DOM node, the timer table) is made explicit as fields
of a state record; every JavaScript function becomes a function from state to
state.  `setTimeout` callbacks are kept in the state until they are run.
-/

namespace Sikkim

/-! ## Carousel: data -/

/-- The source constant `const visibleCards = 3` (server.js, line 33). -/
def visibleCards : Nat := 3

/-- The constants the carousel functions close over: `originalCards.length`,
`visibleCards` and `cardWidth`. -/
structure Env where
  /-- The value of `originalCards.length`. -/
  length : Nat
  /-- The value of `visibleCards`. -/
  visibleCards : Nat
  /-- The value of `cardWidth`. -/
  cardWidth : Nat
  deriving DecidableEq, Repr

/-- The environment of the page: `cardWidth = track.children[0].offsetWidth + 20`
(line 35) and `visibleCards = 3`. -/
def pageEnv (length offsetWidth : Nat) : Env :=
  { length := length, visibleCards := visibleCards, cardWidth := offsetWidth + 20 }

/-- The values the script gives `track.style.transition`. -/
inductive Transition where
  /-- Never assigned. -/
  | unset
  /-- The string "transform 0.6s ease-in-out". -/
  | easeInOut
  /-- The string "none". -/
  | none
  deriving DecidableEq, Repr

/-- The two callbacks handed to `setTimeout(..., 600)`: the one of `moveNext`
(lines 52-56) and the one of `movePrev` (lines 66-70). -/
inductive Snap where
  /-- Snap back to the first original card. -/
  | toFirst
  /-- Snap to the last original card. -/
  | toLast
  deriving DecidableEq, Repr

/-- The mutable state of the carousel.  `transformArg` is the number `v` of the
last assignment of "translateX(-v px)" to `track.style.transform`; `pending` holds the
scheduled snap callbacks that have not run yet, oldest first (all have the same
delay of 600 ms, so they run in the order in which they were scheduled). -/
structure State where
  /-- The variable `index`. -/
  index : Int
  /-- The inline style `track.style.transition`. -/
  transition : Transition
  /-- The number interpolated into `track.style.transform`. -/
  transformArg : Int
  /-- The snap callbacks waiting for their timeout. -/
  pending : List Snap
  deriving DecidableEq, Repr

/-- The horizontal translation that the last assigned transform stands for, in
pixels: "translateX(-v px)" moves the track by `-v` (a transform value when
`v ≥ 0`; see `Shown` for the transform in force otherwise). -/
def State.translation (s : State) : Int := -s.transformArg

/-- The state after the top-level statements of lines 32-44: `index = 0`, the
transform of line 42, no transition assigned, nothing scheduled. -/
def initState (e : Env) : State :=
  { index := 0
    transition := Transition.unset
    transformArg := (e.cardWidth : Int) * e.visibleCards
    pending := [] }

/-! ## Carousel: operations -/

/-- The function `moveNext` (server.js, lines 46-58). -/
def moveNext (e : Env) (s : State) : State :=
  let index := s.index + 1
  let s1 : State :=
    { s with
      index := index
      transition := Transition.easeInOut
      transformArg := ((e.visibleCards : Int) + index) * e.cardWidth }
  if index ≥ (e.length : Int) then
    { s1 with pending := s1.pending ++ [Snap.toFirst] }
  else s1

/-- The function `movePrev` (server.js, lines 60-72). -/
def movePrev (e : Env) (s : State) : State :=
  let index := s.index - 1
  let s1 : State :=
    { s with
      index := index
      transition := Transition.easeInOut
      transformArg := ((e.visibleCards : Int) + index) * e.cardWidth }
  if index < 0 then
    { s1 with pending := s1.pending ++ [Snap.toLast] }
  else s1

/-- The body of a snap callback (lines 53-55 and 67-69). -/
def runSnap (e : Env) (c : Snap) (s : State) : State :=
  match c with
  | Snap.toFirst =>
    { s with
      transition := Transition.none
      transformArg := (e.cardWidth : Int) * e.visibleCards
      index := 0 }
  | Snap.toLast =>
    { s with
      transition := Transition.none
      transformArg := (e.cardWidth : Int) * ((e.visibleCards : Int) + e.length - 1)
      index := (e.length : Int) - 1 }

/-- The oldest scheduled snap callback runs (its timeout elapsed). -/
def fireSnap (e : Env) (s : State) : State :=
  match s.pending with
  | [] => s
  | c :: rest => runSnap e c { s with pending := rest }

/-- Every scheduled snap callback runs, oldest first.  A callback schedules
nothing, so the queue is empty afterwards. -/
def settle (e : Env) (s : State) : State :=
  s.pending.foldl (fun acc c => runSnap e c acc) { s with pending := [] }

/-- The function `moveNext` when the next call comes more than 600 ms later:
the call, then every callback it left scheduled. -/
def nextSettled (e : Env) (s : State) : State := settle e (moveNext e s)

/-- The function `movePrev` when the next call comes more than 600 ms later:
the call, then every callback it left scheduled. -/
def prevSettled (e : Env) (s : State) : State := settle e (movePrev e s)

/-! ## Carousel: the track and its initialization -/

/-- A child of the track element: one of the cards of the static markup, or a
node produced by `cloneNode(true)` from such a card. -/
inductive Node (α : Type) where
  /-- A card of the markup. -/
  | original (card : α)
  /-- A deep copy of a card. -/
  | clone (card : α)
  deriving DecidableEq, Repr

/-- The card a track child displays. -/
def Node.card {α : Type} : Node α → α
  | Node.original a => a
  | Node.clone a => a

/-- The JavaScript array read `xs[i]`: `undefined` (here `none`) outside the array. -/
def jsIndex {α : Type} (xs : List α) (i : Int) : Option α :=
  if i < 0 then none else xs[i.toNat]?

/-- The loop of lines 37-40, with `remaining` iterations to go and loop variable
`i`.  An iteration reads `originalCards[i]` and `originalCards[length - 1 - i]`;
calling `cloneNode` on `undefined` throws, which ends the script (`none`).
Otherwise the first clone is appended to the track and the second is put in
front of it. -/
def cloneLoop {α : Type} (originalCards : List α) :
    Nat → Nat → List (Node α) → Option (List (Node α))
  | 0, _, track => some track
  | remaining + 1, i, track =>
    match jsIndex originalCards (i : Int) with
    | none => none
    | some a =>
      match jsIndex originalCards ((originalCards.length : Int) - 1 - (i : Int)) with
      | none => none
      | some b =>
        cloneLoop originalCards remaining (i + 1) (Node.clone b :: (track ++ [Node.clone a]))

/-- The carousel after the top-level statements of lines 32-44. -/
structure Carousel (α : Type) where
  /-- The children of the track element, left to right. -/
  track : List (Node α)
  /-- The constants. -/
  env : Env
  /-- The mutable state. -/
  state : State
  deriving DecidableEq, Repr

/-- Lines 32-44 for a track with the given children, `k` standing for the constant
`visibleCards` (3 in the source).  `track.children[0].offsetWidth` throws when the
track has no child. -/
def init {α : Type} (k : Nat) (children : List α) (offsetWidth : α → Nat) :
    Option (Carousel α) :=
  match children.head? with
  | none => none
  | some first =>
    let e : Env :=
      { length := children.length, visibleCards := k, cardWidth := offsetWidth first + 20 }
    match cloneLoop children k 0 (children.map Node.original) with
    | none => none
    | some track => some { track := track, env := e, state := initState e }

/-- The cards shown by the `k` track children that start at position `pos`. -/
def view {α : Type} (track : List (Node α)) (pos k : Nat) : List α :=
  ((track.drop pos).take k).map Node.card

/-- The position in the track of the leftmost card in view: the track is moved
left by `transformArg` pixels and every child is `cardWidth` pixels wide. -/
def leftmost (e : Env) (s : State) : Int := s.transformArg / (e.cardWidth : Int)

/-- The cards in view: the viewport shows `visibleCards` children. -/
def inView {α : Type} (c : Carousel α) (s : State) : List α :=
  view c.track (leftmost c.env s).toNat c.env.visibleCards

/-- The extended track as the specification writes it: copies of the last `k`
cards, then the original cards, then copies of the first `k` cards. -/
def extendedTrack {α : Type} (originalCards : List α) (k : Nat) : List (Node α) :=
  (originalCards.drop (originalCards.length - k)).map Node.clone
    ++ originalCards.map Node.original
    ++ (originalCards.take k).map Node.clone

/-! ## Modal system: data -/

/-- A modal node built by `createModal`, named by a number (node identity). -/
abbrev Modal := Nat

/-- The values the script gives `document.body.style.overflow`. -/
inductive Overflow where
  /-- The string "hidden": the page scroll is locked. -/
  | hidden
  /-- The empty string: the page scroll is released. -/
  | empty
  deriving DecidableEq, Repr

/-- The two callbacks of the modal system: the one `showModal` hands to
`setTimeout(..., 10)` and the one `hideModal` hands to `setTimeout(..., 300)`. -/
inductive Callback where
  /-- Lines 42-44: add the class "active". -/
  | activate (m : Modal)
  /-- Lines 50-56: detach the node, release the scroll, clear `currentModal`. -/
  | teardown (m : Modal)
  deriving DecidableEq, Repr

/-- A scheduled callback with the time (in ms) at which it is due. -/
structure Timer where
  /-- The time at which the callback runs. -/
  due : Nat
  /-- The callback. -/
  callback : Callback
  deriving DecidableEq, Repr

/-- What a teardown callback did, recorded for counting. -/
inductive Effect where
  /-- Line 52 ran: `removeChild` took the node out of the document. -/
  | removed (m : Modal)
  /-- Lines 54-55 ran: scroll released and `currentModal` cleared, in the
  callback scheduled for node `m`. -/
  | released (m : Modal)
  deriving DecidableEq, Repr

/-- The state of the modal system.  `attached` lists the modal nodes that are
children of `document.body`, `active` the nodes that carry the class "active",
`timers` the scheduled callbacks ordered by due time (callbacks due at the same
time in the order in which they were scheduled).  `log` is a record of what the
teardown callbacks did; the script does not read it. -/
structure ModalState where
  /-- The clock, in ms. -/
  now : Nat
  /-- The modal nodes in the document. -/
  attached : List Modal
  /-- The nodes with class "active". -/
  active : List Modal
  /-- The inline style `document.body.style.overflow`. -/
  overflow : Overflow
  /-- The variable `currentModal` (`none` for `null`). -/
  currentModal : Option Modal
  /-- The scheduled callbacks. -/
  timers : List Timer
  /-- The effects of the teardown callbacks so far, oldest first. -/
  log : List Effect
  deriving DecidableEq, Repr

/-- The state at page load: line 15, `let currentModal = null`, no inline
overflow style, no modal node. -/
def ModalState.initial : ModalState :=
  { now := 0, attached := [], active := [], overflow := Overflow.empty,
    currentModal := none, timers := [], log := [] }

/-! ## Modal system: operations -/

/-- The call `setTimeout(callback, delay)`: the callback is queued behind every
callback that is due no later. -/
def schedule (delay : Nat) (cb : Callback) (s : ModalState) : ModalState :=
  { s with
    timers := s.timers.filter (fun t => t.due ≤ s.now + delay)
      ++ { due := s.now + delay, callback := cb }
        :: s.timers.filter (fun t => s.now + delay < t.due) }

/-- The function `showModal` (script.js, lines 36-45).  `appendChild` makes the
node the last child of the body, moving it when it is a child already. -/
def showModal (m : Modal) (s : ModalState) : ModalState :=
  schedule 10 (Callback.activate m)
    { s with
      attached := s.attached.filter (fun x => x ≠ m) ++ [m]
      overflow := Overflow.hidden
      currentModal := some m }

/-- The function `hideModal` (script.js, lines 48-57). -/
def hideModal (m : Modal) (s : ModalState) : ModalState :=
  schedule 300 (Callback.teardown m)
    { s with active := s.active.filter (fun x => x ≠ m) }

/-- The body of a callback.  The teardown removes the node only when it has a
parent (line 51) and always releases the scroll and clears `currentModal`. -/
def runCallback (cb : Callback) (s : ModalState) : ModalState :=
  match cb with
  | Callback.activate m =>
    { s with active := if m ∈ s.active then s.active else s.active ++ [m] }
  | Callback.teardown m =>
    let s1 : ModalState :=
      if m ∈ s.attached then
        { s with
          attached := s.attached.filter (fun x => x ≠ m)
          log := s.log ++ [Effect.removed m] }
      else s
    { s1 with
      overflow := Overflow.empty
      currentModal := none
      log := s1.log ++ [Effect.released m] }

/-- The callbacks of the given timers run, from left to right. -/
def runAll (ts : List Timer) (s : ModalState) : ModalState :=
  ts.foldl (fun acc t => runCallback t.callback acc) s

/-- Time passes: `d` ms later every callback that was due by then has run, in
queue order. -/
def elapse (d : Nat) (s : ModalState) : ModalState :=
  runAll (s.timers.filter (fun t => t.due ≤ s.now + d))
    { s with now := s.now + d, timers := s.timers.filter (fun t => s.now + d < t.due) }

/-- The ways a user dismisses a modal. -/
inductive Trigger where
  /-- A click on the button with class "modal-close". -/
  | closeButton
  /-- A click on the layer with class "modal-backdrop". -/
  | backdrop
  /-- The Escape key. -/
  | escape
  deriving DecidableEq, Repr

/-- The listeners that a trigger reaches, for a modal `m` opened by `initVideos`.
The close button has the listener of lines 113-115.  A backdrop click first runs
the listener of lines 117-119 on the backdrop itself and then bubbles to the
document listener of lines 140-144.  Escape runs the listener of lines 133-137. -/
def dispatch (m : Modal) (t : Trigger) (s : ModalState) : ModalState :=
  match t with
  | Trigger.closeButton => hideModal m s
  | Trigger.backdrop =>
    let s1 := hideModal m s
    match s1.currentModal with
    | some cm => hideModal cm s1
    | none => s1
  | Trigger.escape =>
    match s.currentModal with
    | some cm => hideModal cm s
    | none => s

/-- A sequence of triggers on `m`, each after a pause (in ms). -/
def dismiss (m : Modal) : List (Nat × Trigger) → ModalState → ModalState
  | [], s => s
  | (d, t) :: rest, s => dismiss m rest (dispatch m t (elapse d s))

/-- How many times line 52 removed the node `m`. -/
def removals (m : Modal) (s : ModalState) : Nat :=
  s.log.count (Effect.removed m)

/-- How many times lines 54-55 ran. -/
def releases (s : ModalState) : Nat :=
  (s.log.filter (fun e => match e with
    | Effect.released _ => true
    | Effect.removed _ => false)).length

/-- A call or a pause of the modal system. -/
inductive Action where
  /-- A call `showModal(m)`. -/
  | callShow (m : Modal)
  /-- A call `hideModal(m)`. -/
  | callHide (m : Modal)
  /-- A pause of `d` ms, in which the due callbacks run. -/
  | pause (d : Nat)
  deriving DecidableEq, Repr

/-- One action. -/
def Action.apply (a : Action) (s : ModalState) : ModalState :=
  match a with
  | Action.callShow m => showModal m s
  | Action.callHide m => hideModal m s
  | Action.pause d => elapse d s

/-- A sequence of actions, from left to right. -/
def runActions (acts : List Action) (s : ModalState) : ModalState :=
  acts.foldl (fun acc a => a.apply acc) s

/-- The states reached from page load when `showModal` is only called while no
modal node is in the document. -/
inductive OpensWhenClosed : ModalState → Prop where
  /-- Page load. -/
  | start : OpensWhenClosed ModalState.initial
  /-- A call of `showModal` with no modal in the document. -/
  | opened (s : ModalState) (m : Modal) (h : OpensWhenClosed s)
      (hclosed : s.attached = []) : OpensWhenClosed (showModal m s)
  /-- A call of `hideModal`. -/
  | hidden (s : ModalState) (m : Modal) (h : OpensWhenClosed s) :
      OpensWhenClosed (hideModal m s)
  /-- A pause. -/
  | waited (s : ModalState) (d : Nat) (h : OpensWhenClosed s) :
      OpensWhenClosed (elapse d s)

/-- The closed condition for the node `m`: it is not in the document, the scroll
is released and `currentModal` is `null`. -/
def Closed (m : Modal) (s : ModalState) : Prop :=
  m ∉ s.attached ∧ s.overflow = Overflow.empty ∧ s.currentModal = none

/-- Every scheduled callback concerns the node `m` and is due within 300 ms. -/
def OnlyAbout (m : Modal) (s : ModalState) : Prop :=
  ∀ t ∈ s.timers,
    (t.callback = Callback.activate m ∨ t.callback = Callback.teardown m) ∧
    t.due ≤ s.now + 300

/-- The node `m` is open and no teardown has run since the counts `r` (removals
of `m`) and `q` (releases) were taken. -/
def StillOpen (m : Modal) (r q : Nat) (s : ModalState) : Prop :=
  m ∈ s.attached ∧ s.currentModal = some m ∧ removals m s = r ∧ releases s = q

/-- The node `m` has been torn down: one more removal than `r`, at least one more
release than `q`. -/
def TornDown (m : Modal) (r q : Nat) (s : ModalState) : Prop :=
  Closed m s ∧ removals m s = r + 1 ∧ q + 1 ≤ releases s

/-- A dismissal of `m` is under way: torn down already, or still open with a
teardown callback scheduled. -/
def Leaving (m : Modal) (r q : Nat) (s : ModalState) : Prop :=
  TornDown m r q s ∨
  (StillOpen m r q s ∧ ∃ t ∈ s.timers, t.callback = Callback.teardown m)

/-! ## Carousel: the auto-advance timer -/

/-- The interval timers of the page.  `interval` is the variable of line 44
(`none` while it is `undefined`), `running` the handles of the intervals that are
running, `nextHandle` the handle that the next `setInterval` returns. -/
structure IntervalState where
  /-- The variable `interval`. -/
  interval : Option Nat
  /-- The handles of the running intervals, oldest first. -/
  running : List Nat
  /-- The next fresh handle. -/
  nextHandle : Nat
  deriving DecidableEq, Repr

/-- The function `startCarousel` (lines 74-76): `setInterval` starts a new
interval and its handle is stored in `interval`. -/
def startCarousel (s : IntervalState) : IntervalState :=
  { interval := some s.nextHandle
    running := s.running ++ [s.nextHandle]
    nextHandle := s.nextHandle + 1 }

/-- The function `stopCarousel` (lines 78-80): `clearInterval` stops the interval
whose handle is in `interval`, and does nothing for `undefined` or for a handle
that is not running. -/
def stopCarousel (s : IntervalState) : IntervalState :=
  match s.interval with
  | none => s
  | some h => { s with running := s.running.filter (fun x => x ≠ h) }

/-- The timers after the script has run: line 44 declares `interval`, line 87
calls `startCarousel()`. -/
def IntervalState.loaded : IntervalState :=
  startCarousel { interval := none, running := [], nextHandle := 1 }

/-- The hover events of the carousel region. -/
inductive MouseEvent where
  /-- The pointer enters the region: `stopCarousel` (line 84). -/
  | mouseenter
  /-- The pointer leaves the region: `startCarousel` (line 85). -/
  | mouseleave
  deriving DecidableEq, Repr

/-- The listener of an event. -/
def MouseEvent.handle (ev : MouseEvent) (s : IntervalState) : IntervalState :=
  match ev with
  | MouseEvent.mouseenter => stopCarousel s
  | MouseEvent.mouseleave => startCarousel s

/-- The timers after the script has run and the given events have been handled. -/
def hover (evs : List MouseEvent) : IntervalState :=
  evs.foldl (fun s ev => ev.handle s) IntervalState.loaded

/-- Every `mouseleave` of the sequence comes directly after a `mouseenter`;
`afterEnter` tells whether the event before the sequence was a `mouseenter`. -/
def leaveFollowsEnter : Bool → List MouseEvent → Bool
  | _, [] => true
  | _, MouseEvent.mouseenter :: rest => leaveFollowsEnter true rest
  | afterEnter, MouseEvent.mouseleave :: rest => afterEnter && leaveFollowsEnter false rest

/-- Whether the last event was a `mouseenter`, `afterEnter` standing for the event
before the sequence. -/
def endsAfterEnter : Bool → List MouseEvent → Bool
  | afterEnter, [] => afterEnter
  | _, MouseEvent.mouseenter :: rest => endsAfterEnter true rest
  | _, MouseEvent.mouseleave :: rest => endsAfterEnter false rest

/-- The timers as the alternation of events leaves them: none running after a
`mouseenter`, otherwise exactly the one whose handle is in `interval`. -/
def TimerMode (afterEnter : Bool) (s : IntervalState) : Prop :=
  if afterEnter then s.running = []
  else ∃ h, s.interval = some h ∧ s.running = [h]

/-! ## Directions -/

/-- How the request for the position ends: no `navigator.geolocation` at all (the
`else` branch of line 266), the error callback (request denied or failed, line
260), the success callback with the two coordinates (line 255), or neither
callback: `getCurrentPosition` is called without a timeout, so as long as the
browser has no answer (a permission prompt left open, a fix that never comes)
it calls nothing.  `ν` is the type of JavaScript numbers. -/
inductive Geolocation (ν : Type) where
  /-- `navigator.geolocation` is missing. -/
  | unavailable
  /-- The error callback is called. -/
  | failed
  /-- The success callback is called with `position.coords`. -/
  | position (latitude longitude : ν)
  /-- Neither callback is called. -/
  | unanswered
  deriving DecidableEq, Repr

/-- The function `openGoogleMapsDirections` (script.js, lines 251-271): the URLs
handed to `window.open`, in order.  `numberToString` is the conversion a template
literal applies to a number; `lat` and `lng` are the strings read from the data
attributes of the button.  With geolocation present, `window.open` is called
only inside the two callbacks, so nothing is opened when neither is called. -/
def openGoogleMapsDirections {ν : Type} (numberToString : ν → String)
    (geo : Geolocation ν) (lat lng : String) : List String :=
  match geo with
  | Geolocation.position latitude longitude =>
    let origin := numberToString latitude ++ "," ++ numberToString longitude
    let url := "https://www.google.com/maps/dir/?api=1&origin=" ++ origin
      ++ "&destination=" ++ lat ++ "," ++ lng
    [url]
  | Geolocation.failed =>
    let url := "https://www.google.com/maps/dir/?api=1&origin=Current+Location&destination="
      ++ lat ++ "," ++ lng
    [url]
  | Geolocation.unavailable =>
    let url := "https://www.google.com/maps/dir/?api=1&origin=Current+Location&destination="
      ++ lat ++ "," ++ lng
    [url]
  | Geolocation.unanswered => []

/-- The characters after the first occurrence of `sep` (none when it is absent). -/
def afterFirst (sep : Char) : List Char → List Char
  | [] => []
  | c :: cs => if c = sep then cs else afterFirst sep cs

/-- The pieces between the occurrences of `sep`. -/
def splitOnChar (sep : Char) : List Char → List (List Char)
  | [] => [[]]
  | c :: cs =>
    if c = sep then [] :: splitOnChar sep cs
    else
      match splitOnChar sep cs with
      | [] => [[c]]
      | piece :: pieces => (c :: piece) :: pieces

/-- The name of a query parameter `name=value`. -/
def keyOf (piece : List Char) : List Char :=
  piece.takeWhile (fun c => c ≠ '=')

/-- The value of a query parameter `name=value`. -/
def valueOf (piece : List Char) : List Char :=
  (piece.dropWhile (fun c => c ≠ '=')).drop 1

/-- The value of the query parameter `key` of a URL: the query is what follows
the first question mark, parameters are separated by ampersands, and the first
parameter with the given name counts. -/
def queryParam (key : String) (url : String) : Option String :=
  ((splitOnChar '&' (afterFirst '?' url.data)).find? (fun piece => keyOf piece = key.data)).map
    (fun piece => String.mk (valueOf piece))

/-- No ampersand in the rendered coordinates of a position. -/
def OriginPlain {ν : Type} (numberToString : ν → String) : Geolocation ν → Prop
  | Geolocation.position latitude longitude =>
    '&' ∉ (numberToString latitude).data ∧ '&' ∉ (numberToString longitude).data
  | Geolocation.failed => True
  | Geolocation.unavailable => True
  | Geolocation.unanswered => True

/-! ## Carousel: reachable states and the transform in force -/

/-- The carousel states reached from initialization by calls of `moveNext` and
`movePrev` and by scheduled snap callbacks running, in any interleaving. -/
inductive Reachable (e : Env) : State → Prop where
  /-- The state after the top-level statements. -/
  | init : Reachable e (initState e)
  /-- A call of `moveNext` (button or interval). -/
  | next (s : State) (h : Reachable e s) : Reachable e (moveNext e s)
  /-- A call of `movePrev`. -/
  | prev (s : State) (h : Reachable e s) : Reachable e (movePrev e s)
  /-- The oldest scheduled snap callback runs. -/
  | fire (s : State) (h : Reachable e s) : Reachable e (fireSnap e s)

/-- The carousel together with the transform that is in force on the track.
The script assigns the text "translateX(-v px)" with the number `v` written by a
template literal.  For `v ≥ 0` this is the translation by `-v` pixels.  For
`v < 0` the number is written with its own minus sign, the text reads
"translateX(--... px)", which is no transform value, and the assignment to
`style.transform` leaves the previous value in force. -/
structure Shown where
  /-- The variables and the numbers last assigned. -/
  state : State
  /-- The horizontal translation in force, in pixels. -/
  translateX : Int
  deriving DecidableEq, Repr

/-- An assignment to `track.style.transform` that takes the carousel to state
`s`: the new translation is in force when the number written is not negative. -/
def Shown.assign (old : Shown) (s : State) : Shown :=
  { state := s
    translateX := if 0 ≤ s.transformArg then -s.transformArg else old.translateX }

/-- The track after the top-level statements: line 42 assigns the transform to
a track that had none. -/
def shownInit (e : Env) : Shown :=
  Shown.assign { state := initState e, translateX := 0 } (initState e)

/-- A call of `moveNext` and its assignment of the transform. -/
def shownNext (e : Env) (t : Shown) : Shown :=
  t.assign (moveNext e t.state)

/-- A call of `movePrev` and its assignment of the transform. -/
def shownPrev (e : Env) (t : Shown) : Shown :=
  t.assign (movePrev e t.state)

/-- The oldest scheduled snap callback runs and assigns the transform. -/
def shownFire (e : Env) (t : Shown) : Shown :=
  match t.state.pending with
  | [] => t
  | c :: rest => t.assign (runSnap e c { t.state with pending := rest })

/-- Every scheduled snap callback runs, oldest first. -/
def shownSettle (e : Env) (t : Shown) : Shown :=
  (shownFire e)^[t.state.pending.length] t

/-- A call of `moveNext` followed by the callbacks it leaves scheduled. -/
def shownNextSettled (e : Env) (t : Shown) : Shown :=
  shownSettle e (shownNext e t)

/-- A call of `movePrev` followed by the callbacks it leaves scheduled. -/
def shownPrevSettled (e : Env) (t : Shown) : Shown :=
  shownSettle e (shownPrev e t)

/-- The carousel, with the transform in force, as reached from initialization by
calls of `moveNext` and `movePrev` and by snap callbacks, in any interleaving. -/
inductive ShownReachable (e : Env) : Shown → Prop where
  /-- The track after the top-level statements. -/
  | init : ShownReachable e (shownInit e)
  /-- A call of `moveNext`. -/
  | next (t : Shown) (h : ShownReachable e t) : ShownReachable e (shownNext e t)
  /-- A call of `movePrev`. -/
  | prev (t : Shown) (h : ShownReachable e t) : ShownReachable e (shownPrev e t)
  /-- The oldest scheduled snap callback runs. -/
  | fire (t : Shown) (h : ShownReachable e t) : ShownReachable e (shownFire e t)

/-! ## Dark mode -/

/-- The part of the page that `initDarkMode` reads and writes.  `darkClass` tells
whether the body carries the class "dark-mode", `storage` is what
`localStorage.getItem` gives for the key "darkMode" (`none` for `null`),
`toggle` tells whether the element with id "dark-mode-toggle" exists, `icon` is
the class name of its icon, `toggleTransform` its inline transform, and
`pending` holds, for every 150 ms callback not yet run, the value of
`isDarkMode` it captured, oldest first. -/
structure DarkPage where
  /-- The body has the class "dark-mode". -/
  darkClass : Bool
  /-- The stored value of the key "darkMode". -/
  storage : Option String
  /-- The toggle button exists. -/
  toggle : Bool
  /-- The class name of the icon of the toggle. -/
  icon : String
  /-- The inline transform of the toggle. -/
  toggleTransform : String
  /-- The captured `isDarkMode` of the icon callbacks that have not run. -/
  pending : List Bool
  deriving DecidableEq, Repr

/-- The text that `localStorage.setItem` stores for a boolean. -/
def boolText (b : Bool) : String :=
  if b then "true" else "false"

/-- The click listener of the toggle (script.js, lines 494-509): toggle the
class, start the icon animation, schedule the icon update, store the flag. -/
def toggleClick (p : DarkPage) : DarkPage :=
  let isDarkMode := !p.darkClass
  { p with
    darkClass := isDarkMode
    toggleTransform := "scale(0.8) rotateZ(180deg)"
    pending := p.pending ++ [isDarkMode]
    storage := some (boolText isDarkMode) }

/-- The oldest icon callback runs (lines 502-505). -/
def iconTimeout (p : DarkPage) : DarkPage :=
  match p.pending with
  | [] => p
  | isDarkMode :: rest =>
    { p with
      icon := if isDarkMode then "fas fa-sun" else "fas fa-moon"
      toggleTransform := "scale(1) rotateZ(0deg)"
      pending := rest }

/-- The loading part of `initDarkMode` (script.js, lines 512-519): the stored
value is compared with the text "true"; on equality the class is added and, when
the toggle exists, its icon is set. -/
def initDarkMode (p : DarkPage) : DarkPage :=
  let savedDarkMode := decide (p.storage = some "true")
  if savedDarkMode then
    { p with
      darkClass := true
      icon := if p.toggle then "fas fa-sun" else p.icon }
  else p

/-- A page as it is before `initDarkMode` runs, with the given stored value: a
body without the dark-mode class, a toggle with a moon icon, nothing scheduled. -/
def freshPage (storage : Option String) : DarkPage :=
  { darkClass := false
    storage := storage
    toggle := true
    icon := "fas fa-moon"
    toggleTransform := ""
    pending := [] }

/-- What happens on the page after it is loaded: a click on the toggle, or an
icon callback running. -/
inductive DarkEvent where
  /-- A click on the toggle. -/
  | click
  /-- The oldest icon callback runs. -/
  | timeout
  deriving DecidableEq, Repr

/-- The effect of an event. -/
def DarkEvent.apply (ev : DarkEvent) (p : DarkPage) : DarkPage :=
  match ev with
  | DarkEvent.click => toggleClick p
  | DarkEvent.timeout => iconTimeout p

/-- The page after a sequence of events, from left to right. -/
def runDark (evs : List DarkEvent) (p : DarkPage) : DarkPage :=
  evs.foldl (fun acc ev => ev.apply acc) p

/-- The number of clicks in a sequence of events. -/
def clicks (evs : List DarkEvent) : Nat :=
  evs.count DarkEvent.click

/-- The stored value denotes true: `getItem` gives the text "true". -/
def storedTrue (p : DarkPage) : Bool :=
  decide (p.storage = some "true")

/-! ## Carousel: loop closure -/

theorem moveNext_iterate_lt (e : Env) (s : State) (h0 : s.index = 0)
    (hp : s.pending = []) (n : Nat) (hn : n < e.length) :
    ((moveNext e)^[n] s).index = n ∧ ((moveNext e)^[n] s).pending = [] := by
  induction n with
  | zero => simp [h0, hp]
  | succ n ih =>
    obtain ⟨hi, hq⟩ := ih (by omega)
    rw [Function.iterate_succ_apply']
    have hlt : ¬ ((n : Int) + 1 ≥ (e.length : Int)) := by omega
    simp [moveNext, hi, hq, hlt]

/-- Claim C1.  Forward loop closure: from `index = 0`, translation
`-(cardWidth * visibleCards)` and nothing scheduled, `N = originalCards.length ≥ 1`
calls of `moveNext` leave exactly one snap callback scheduled (that of the last
call), and once it has run the index is 0 again and the translation is the
initial `-(cardWidth * visibleCards)`. -/
theorem moveNext_loop_closure (e : Env) (s : State) (hN : 1 ≤ e.length)
    (h0 : s.index = 0)
    (ht : s.translation = -((e.cardWidth : Int) * e.visibleCards))
    (hp : s.pending = []) :
    ((moveNext e)^[e.length] s).pending = [Snap.toFirst] ∧
    (fireSnap e ((moveNext e)^[e.length] s)).index = 0 ∧
    (fireSnap e ((moveNext e)^[e.length] s)).translation = s.translation ∧
    (fireSnap e ((moveNext e)^[e.length] s)).pending = [] := by
  obtain ⟨m, hm⟩ : ∃ m, e.length = m + 1 := ⟨e.length - 1, by omega⟩
  obtain ⟨hi, hq⟩ := moveNext_iterate_lt e s h0 hp m (by omega)
  rw [hm, Function.iterate_succ_apply']
  have hge : (m : Int) + 1 ≥ ((m + 1 : Nat) : Int) := by push_cast; omega
  have hlen : (e.length : Int) = m + 1 := by omega
  have ht' : s.transformArg = (e.cardWidth : Int) * e.visibleCards := by
    have := ht
    simp only [State.translation, neg_inj] at this
    exact this
  simp [moveNext, fireSnap, runSnap, State.translation, hi, hq, hlen, ht']

/-- Witness of C1: six original cards, three visible, card width 320. -/
theorem moveNext_loop_closure_witness :
    ((moveNext (pageEnv 6 300))^[6] (initState (pageEnv 6 300))).pending = [Snap.toFirst] ∧
    (fireSnap (pageEnv 6 300) ((moveNext (pageEnv 6 300))^[6] (initState (pageEnv 6 300)))).index = 0 ∧
    (fireSnap (pageEnv 6 300) ((moveNext (pageEnv 6 300))^[6] (initState (pageEnv 6 300)))).translation
      = (initState (pageEnv 6 300)).translation ∧
    (fireSnap (pageEnv 6 300) ((moveNext (pageEnv 6 300))^[6] (initState (pageEnv 6 300)))).pending = [] :=
  moveNext_loop_closure (pageEnv 6 300) (initState (pageEnv 6 300)) (by decide) rfl
    (by decide) rfl

theorem prevSettled_of_pos (e : Env) (s : State) (hp : s.pending = [])
    (hi : 0 < s.index) :
    (prevSettled e s).index = s.index - 1 ∧
    (prevSettled e s).transformArg = ((e.visibleCards : Int) + (s.index - 1)) * e.cardWidth ∧
    (prevSettled e s).pending = [] := by
  have hlt : ¬ (s.index - 1 < 0) := by omega
  simp [prevSettled, movePrev, settle, hp, hlt]

theorem prevSettled_iterate_down (e : Env) (n : Nat) :
    ∀ s : State, s.pending = [] → s.index = n →
      s.transformArg = (e.cardWidth : Int) * ((e.visibleCards : Int) + n) →
      ((prevSettled e)^[n] s).index = 0 ∧
      ((prevSettled e)^[n] s).transformArg = (e.cardWidth : Int) * e.visibleCards ∧
      ((prevSettled e)^[n] s).pending = [] := by
  induction n with
  | zero =>
    intro s hp hi ht
    simp [hp, hi, ht]
  | succ n ih =>
    intro s hp hi ht
    obtain ⟨h1, h2, h3⟩ := prevSettled_of_pos e s hp (by omega)
    rw [Function.iterate_succ_apply]
    apply ih _ h3
    · rw [h1, hi]; push_cast; ring
    · rw [h2, hi]; push_cast; ring

theorem prevSettled_wrap (e : Env) (s : State) (hp : s.pending = [])
    (h0 : s.index = 0) :
    (prevSettled e s).index = (e.length : Int) - 1 ∧
    (prevSettled e s).transformArg
      = (e.cardWidth : Int) * ((e.visibleCards : Int) + e.length - 1) ∧
    (prevSettled e s).pending = [] := by
  simp [prevSettled, movePrev, settle, runSnap, hp, h0]

/-- Claim C2.  Backward loop closure: from `index = 0`, translation
`-(cardWidth * visibleCards)` and nothing scheduled, with `N ≥ 1` original cards,
the first `movePrev` schedules the wrap callback, which snaps to translation
`-(cardWidth * (visibleCards + N - 1))` with `index = N - 1`; and after `N` calls
of `movePrev`, each scheduled callback running before the next call, the index
is 0 and the translation is the initial one. -/
theorem movePrev_loop_closure (e : Env) (s : State) (hN : 1 ≤ e.length)
    (h0 : s.index = 0)
    (ht : s.translation = -((e.cardWidth : Int) * e.visibleCards))
    (hp : s.pending = []) :
    (movePrev e s).pending = [Snap.toLast] ∧
    (prevSettled e s).index = (e.length : Int) - 1 ∧
    (prevSettled e s).translation
      = -((e.cardWidth : Int) * ((e.visibleCards : Int) + e.length - 1)) ∧
    ((prevSettled e)^[e.length] s).index = 0 ∧
    ((prevSettled e)^[e.length] s).translation = s.translation ∧
    ((prevSettled e)^[e.length] s).pending = [] := by
  obtain ⟨m, hm⟩ : ∃ m, e.length = m + 1 := ⟨e.length - 1, by omega⟩
  obtain ⟨w1, w2, w3⟩ := prevSettled_wrap e s hp h0
  have hsched : (movePrev e s).pending = [Snap.toLast] := by
    simp [movePrev, hp, h0]
  have hlen : (e.length : Int) - 1 = m := by omega
  obtain ⟨d1, d2, d3⟩ := prevSettled_iterate_down e m (prevSettled e s) w3
    (by rw [w1, hlen]) (by rw [w2]; congr 1; omega)
  refine ⟨hsched, w1, ?_, ?_, ?_, ?_⟩
  · simp [State.translation, w2]
  · rw [hm, Function.iterate_succ_apply]; exact d1
  · rw [hm, Function.iterate_succ_apply, ht]; simp [State.translation, d2]
  · rw [hm, Function.iterate_succ_apply]; exact d3

/-- Witness of C2: six original cards, three visible, card width 320. -/
theorem movePrev_loop_closure_witness :
    (movePrev (pageEnv 6 300) (initState (pageEnv 6 300))).pending = [Snap.toLast] ∧
    (prevSettled (pageEnv 6 300) (initState (pageEnv 6 300))).index = 5 ∧
    (prevSettled (pageEnv 6 300) (initState (pageEnv 6 300))).translation = -2560 ∧
    ((prevSettled (pageEnv 6 300))^[6] (initState (pageEnv 6 300))).index = 0 ∧
    ((prevSettled (pageEnv 6 300))^[6] (initState (pageEnv 6 300))).translation = -960 ∧
    ((prevSettled (pageEnv 6 300))^[6] (initState (pageEnv 6 300))).pending = [] :=
  movePrev_loop_closure (pageEnv 6 300) (initState (pageEnv 6 300)) (by decide) rfl
    (by decide) rfl

/-! ## Carousel: initialization -/

theorem jsIndex_natCast {α : Type} (xs : List α) (i : Nat) (h : i < xs.length) :
    jsIndex xs (i : Int) = some (xs.get ⟨i, h⟩) := by
  have hneg : ¬ ((i : Int) < 0) := by omega
  simp [jsIndex, hneg, List.getElem?_eq_getElem h]

theorem jsIndex_mirror {α : Type} (xs : List α) (i : Nat) (h : i < xs.length) :
    jsIndex xs ((xs.length : Int) - 1 - (i : Int))
      = some (xs.get ⟨xs.length - 1 - i, by omega⟩) := by
  have hcast : (xs.length : Int) - 1 - (i : Int) = ((xs.length - 1 - i : Nat) : Int) := by
    omega
  rw [hcast]
  exact jsIndex_natCast xs (xs.length - 1 - i) (by omega)

theorem jsIndex_of_length_le {α : Type} (xs : List α) (i : Nat) (h : xs.length ≤ i) :
    jsIndex xs (i : Int) = none := by
  have hneg : ¬ ((i : Int) < 0) := by omega
  simp [jsIndex, hneg, List.getElem?_eq_none h]

theorem extendedTrack_succ {α : Type} (oc : List α) (i : Nat) (h : i < oc.length) :
    Node.clone (oc.get ⟨oc.length - 1 - i, by omega⟩)
        :: (extendedTrack oc i ++ [Node.clone (oc.get ⟨i, h⟩)])
      = extendedTrack oc (i + 1) := by
  have hd : oc.drop (oc.length - (i + 1))
      = oc.get ⟨oc.length - 1 - i, by omega⟩ :: oc.drop (oc.length - i) := by
    have e2 : oc.length - (i + 1) = oc.length - 1 - i := by omega
    have e1 : oc.length - 1 - i + 1 = oc.length - i := by omega
    rw [e2, List.drop_eq_getElem_cons (by omega)]
    exact congrArg (fun t => oc.get ⟨oc.length - 1 - i, by omega⟩ :: List.drop t oc) e1
  have htk : oc.take (i + 1) = oc.take i ++ [oc.get ⟨i, h⟩] := by
    rw [List.take_succ, List.getElem?_eq_getElem h]
    rfl
  unfold extendedTrack
  rw [hd, htk]
  simp only [List.map_cons, List.map_append, List.map_nil, List.cons_append,
    List.append_assoc]

theorem cloneLoop_extendedTrack {α : Type} (oc : List α) (r : Nat) :
    ∀ i : Nat, i + r ≤ oc.length →
      cloneLoop oc r i (extendedTrack oc i) = some (extendedTrack oc (i + r)) := by
  induction r with
  | zero => intro i _; simp [cloneLoop]
  | succ r ih =>
    intro i h
    have hi : i < oc.length := by omega
    rw [cloneLoop, jsIndex_natCast oc i hi, jsIndex_mirror oc i hi]
    simp only
    rw [extendedTrack_succ oc i hi, ih (i + 1) (by omega)]
    congr 2
    omega

theorem extendedTrack_zero {α : Type} (oc : List α) :
    extendedTrack oc 0 = oc.map Node.original := by
  simp [extendedTrack]

theorem cloneLoop_fails {α : Type} (oc : List α) (r : Nat) :
    ∀ (i : Nat) (track : List (Node α)), 0 < r → oc.length < i + r →
      cloneLoop oc r i track = none := by
  induction r with
  | zero => intro i track h; omega
  | succ r ih =>
    intro i track _ h
    by_cases hi : i < oc.length
    · rw [cloneLoop, jsIndex_natCast oc i hi, jsIndex_mirror oc i hi]
      simp only
      exact ih (i + 1) _ (by omega) (by omega)
    · rw [cloneLoop, jsIndex_of_length_le oc i (by omega)]

theorem extendedTrack_length {α : Type} (oc : List α) (k : Nat) (hk : k ≤ oc.length) :
    (extendedTrack oc k).length = oc.length + 2 * k := by
  simp only [extendedTrack, List.length_append, List.length_map, List.length_drop,
    List.length_take]
  omega

theorem extendedTrack_getElem? {α : Type} (oc : List α) (k : Nat) (hk : k ≤ oc.length)
    (i : Nat) :
    (extendedTrack oc k)[i]? =
      if i < k then oc[oc.length - k + i]?.map Node.clone
      else if i < k + oc.length then oc[i - k]?.map Node.original
      else if i < k + oc.length + k then oc[i - k - oc.length]?.map Node.clone
      else none := by
  have hA : ((oc.drop (oc.length - k)).map (Node.clone : α → Node α)).length = k := by
    simp only [List.length_map, List.length_drop]; omega
  have hO : (oc.map (Node.original : α → Node α)).length = oc.length := by simp
  unfold extendedTrack
  by_cases h1 : i < k
  · rw [if_pos h1, List.append_assoc, List.getElem?_append_left (by omega)]
    simp [List.getElem?_drop]
  · rw [if_neg h1, List.append_assoc, List.getElem?_append_right (by omega), hA]
    by_cases h2 : i < k + oc.length
    · rw [if_pos h2, List.getElem?_append_left (by rw [hO]; omega)]
      simp
    · rw [if_neg h2, List.getElem?_append_right (by rw [hO]; omega), hO]
      by_cases h3 : i < k + oc.length + k
      · rw [if_pos h3]
        simp only [List.getElem?_map]
        rw [List.getElem?_take_of_lt (by omega)]
      · rw [if_neg h3]
        apply List.getElem?_eq_none
        simp only [List.length_map, List.length_take]
        omega

theorem view_getElem? {α : Type} (track : List (Node α)) (pos k j : Nat) :
    (view track pos k)[j]? = if j < k then track[pos + j]?.map Node.card else none := by
  simp only [view, List.getElem?_map, List.getElem?_take, List.getElem?_drop]
  split <;> simp

theorem init_eq_of_le {α : Type} (k : Nat) (children : List α) (offsetWidth : α → Nat)
    (first : α) (hf : children.head? = some first) (hk : k ≤ children.length) :
    init k children offsetWidth = some
      { track := extendedTrack children k
        env := { length := children.length, visibleCards := k,
                 cardWidth := offsetWidth first + 20 }
        state := initState { length := children.length, visibleCards := k,
                             cardWidth := offsetWidth first + 20 } } := by
  have hloop := cloneLoop_extendedTrack children k 0 (by omega)
  rw [extendedTrack_zero, Nat.zero_add] at hloop
  simp only [init, hf, hloop]

theorem init_none_of_lt {α : Type} (k : Nat) (children : List α) (offsetWidth : α → Nat)
    (hk : children.length < k) : init k children offsetWidth = none := by
  unfold init
  cases children.head? with
  | none => rfl
  | some first =>
    simp only
    rw [cloneLoop_fails children k 0 _ (by omega) (by omega)]

theorem head?_of_length_pos {α : Type} (xs : List α) (h : 1 ≤ xs.length) :
    ∃ a, xs.head? = some a := by
  cases xs with
  | nil => simp at h
  | cons a t => exact ⟨a, rfl⟩

/-- Claim C3, as stated, fails: with two original cards and `visibleCards = 3` the
third iteration of the clone loop reads `originalCards[2]`, which is `undefined`,
and the script stops with a TypeError. -/
theorem init_two_cards_throws :
    (1 ≤ [10, 11].length ∧ 1 ≤ visibleCards) ∧
    init visibleCards [10, 11] (fun _ => 300) = none := by
  decide

/-- Claim C3, amended.  For `1 ≤ visibleCards ≤ N` the initialization succeeds and
the track has exactly `N + 2 * visibleCards` children, the one at position
`visibleCards` being the first original card. -/
theorem init_track {α : Type} (k : Nat) (children : List α) (offsetWidth : α → Nat)
    (hk : 1 ≤ k) (hkN : k ≤ children.length) :
    ∃ c first, init k children offsetWidth = some c ∧
      children.head? = some first ∧
      c.track.length = children.length + 2 * k ∧
      c.track[k]? = some (Node.original first) := by
  obtain ⟨first, hf⟩ := head?_of_length_pos children (by omega)
  refine ⟨_, first, init_eq_of_le k children offsetWidth first hf hkN, hf, ?_, ?_⟩
  · exact extendedTrack_length children k hkN
  · simp only
    rw [extendedTrack_getElem? children k hkN k, if_neg (by omega), if_pos (by omega),
      Nat.sub_self, ← List.head?_eq_getElem?, hf]
    rfl

/-- Witness of C3 (amended): six cards, three visible, a track of twelve. -/
theorem init_track_witness :
    (1 ≤ 3 ∧ 3 ≤ [0, 1, 2, 3, 4, 5].length) ∧
    ∃ c first, init 3 [0, 1, 2, 3, 4, 5] (fun _ => 300) = some c ∧
      [0, 1, 2, 3, 4, 5].head? = some first ∧
      c.track.length = [0, 1, 2, 3, 4, 5].length + 2 * 3 ∧
      c.track[3]? = some (Node.original first) :=
  ⟨by decide, init_track 3 [0, 1, 2, 3, 4, 5] (fun _ => 300) (by decide) (by decide)⟩

/-- Claim C4.  Clone order: for `N ≥ k = visibleCards` the loop of lines 37-40,
run on the track of the `N` original cards, ends and leaves the track
`[clone(N-k), ..., clone(N-1)] ++ originals ++ [clone(0), ..., clone(k-1)]`. -/
theorem cloneLoop_order {α : Type} (originalCards : List α) (k : Nat)
    (hk : k ≤ originalCards.length) :
    cloneLoop originalCards k 0 (originalCards.map Node.original)
      = some ((originalCards.drop (originalCards.length - k)).map Node.clone
          ++ originalCards.map Node.original
          ++ (originalCards.take k).map Node.clone) := by
  have hloop := cloneLoop_extendedTrack originalCards k 0 (by omega)
  rw [extendedTrack_zero, Nat.zero_add] at hloop
  exact hloop

/-- Witness of C4: six cards, three visible. -/
theorem cloneLoop_order_witness :
    3 ≤ [0, 1, 2, 3, 4, 5].length ∧
    cloneLoop [0, 1, 2, 3, 4, 5] 3 0 ([0, 1, 2, 3, 4, 5].map Node.original)
      = some [Node.clone 3, Node.clone 4, Node.clone 5,
          Node.original 0, Node.original 1, Node.original 2,
          Node.original 3, Node.original 4, Node.original 5,
          Node.clone 0, Node.clone 1, Node.clone 2] :=
  ⟨by decide, cloneLoop_order [0, 1, 2, 3, 4, 5] 3 (by decide)⟩

/-! ## Carousel: seamless snap -/

theorem extendedTrack_card {α : Type} (oc : List α) (k : Nat) (hk : k ≤ oc.length)
    (i : Nat) :
    (extendedTrack oc k)[i]?.map Node.card =
      if i < k then oc[oc.length - k + i]?
      else if i < k + oc.length then oc[i - k]?
      else if i < k + oc.length + k then oc[i - k - oc.length]?
      else none := by
  rw [extendedTrack_getElem? oc k hk i]
  have hc : ∀ x : Option α, (x.map Node.clone).map Node.card = x := by
    intro x; cases x <;> rfl
  have ho : ∀ x : Option α, (x.map Node.original).map Node.card = x := by
    intro x; cases x <;> rfl
  split
  · exact hc _
  · split
    · exact ho _
    · split
      · exact hc _
      · rfl

theorem view_forward_wrap {α : Type} (oc : List α) (k : Nat) (hk : k ≤ oc.length) :
    view (extendedTrack oc k) (k + oc.length) k = view (extendedTrack oc k) k k := by
  apply List.ext_getElem?
  intro j
  rw [view_getElem?, view_getElem?]
  by_cases hj : j < k
  · rw [if_pos hj, if_pos hj, extendedTrack_card oc k hk, extendedTrack_card oc k hk,
      if_neg (by omega), if_neg (by omega), if_pos (by omega), if_neg (by omega),
      if_pos (by omega)]
    congr 1
    omega
  · rw [if_neg hj, if_neg hj]

theorem view_backward_wrap {α : Type} (oc : List α) (k : Nat) (hk : k ≤ oc.length) :
    view (extendedTrack oc k) (k - 1) k
      = view (extendedTrack oc k) (k + oc.length - 1) k := by
  apply List.ext_getElem?
  intro j
  rw [view_getElem?, view_getElem?]
  by_cases hj : j < k
  · rw [if_pos hj, if_pos hj, extendedTrack_card oc k hk, extendedTrack_card oc k hk]
    by_cases h0 : j = 0
    · subst h0
      rw [if_pos (by omega), if_neg (by omega), if_pos (by omega)]
      congr 1
      omega
    · rw [if_neg (by omega), if_pos (by omega), if_neg (by omega), if_neg (by omega),
        if_pos (by omega)]
      congr 1
      omega
  · rw [if_neg hj, if_neg hj]

theorem inView_of_transformArg {α : Type} (c : Carousel α) (s : State) (p : Nat)
    (hcw : 0 < c.env.cardWidth)
    (h : s.transformArg = (p : Int) * (c.env.cardWidth : Int)) :
    inView c s = view c.track p c.env.visibleCards := by
  have hne : (c.env.cardWidth : Int) ≠ 0 := by omega
  simp only [inView, leftmost, h, Int.mul_ediv_cancel _ hne, Int.toNat_ofNat]

theorem view_zero {α : Type} (track : List (Node α)) (pos : Nat) :
    view track pos 0 = [] := by
  simp [view]

theorem forward_wrap_views {α : Type} (c : Carousel α) (oc : List α) (k : Nat)
    (hk : k ≤ oc.length) (ht : c.track = extendedTrack oc k)
    (hl : c.env.length = oc.length) (hv : c.env.visibleCards = k)
    (hcw : 0 < c.env.cardWidth) (s : State) (hp : s.pending = [])
    (hi : s.index = (oc.length : Int) - 1) :
    (moveNext c.env s).pending = [Snap.toFirst] ∧
    inView c (moveNext c.env s) = view c.track (k + oc.length) k ∧
    inView c (fireSnap c.env (moveNext c.env s)) = view c.track k k ∧
    inView c (moveNext c.env s) = inView c (fireSnap c.env (moveNext c.env s)) := by
  have hge : s.index + 1 ≥ (c.env.length : Int) := by omega
  have hq : (moveNext c.env s).pending = [Snap.toFirst] := by
    simp [moveNext, hp, hge]
  have h1 := inView_of_transformArg c (moveNext c.env s) (k + oc.length) hcw
    (by simp [moveNext, hi, hv, hl])
  have h2 := inView_of_transformArg c (fireSnap c.env (moveNext c.env s)) k hcw
    (by simp [fireSnap, runSnap, moveNext, hp, hi, hl, hv, mul_comm])
  rw [hv] at h1 h2
  refine ⟨hq, h1, h2, ?_⟩
  rw [h1, h2, ht]
  exact view_forward_wrap oc k hk

theorem backward_wrap_views {α : Type} (c : Carousel α) (oc : List α) (k : Nat)
    (hk : k ≤ oc.length) (ht : c.track = extendedTrack oc k)
    (hl : c.env.length = oc.length) (hv : c.env.visibleCards = k)
    (hcw : 0 < c.env.cardWidth) (s : State) (hp : s.pending = [])
    (hi : s.index = 0) :
    (movePrev c.env s).pending = [Snap.toLast] ∧
    inView c (movePrev c.env s) = view c.track (k - 1) k ∧
    inView c (fireSnap c.env (movePrev c.env s)) = view c.track (k + oc.length - 1) k ∧
    inView c (movePrev c.env s) = inView c (fireSnap c.env (movePrev c.env s)) := by
  have hq : (movePrev c.env s).pending = [Snap.toLast] := by
    simp [movePrev, hp, hi]
  by_cases hk0 : k = 0
  · subst hk0
    refine ⟨hq, ?_, ?_, ?_⟩ <;> simp [inView, view_zero, hv]
  · have hc1 : ((k - 1 : Nat) : Int) = (k : Int) - 1 := by omega
    have hc2 : ((k + oc.length - 1 : Nat) : Int) = (k : Int) + oc.length - 1 := by omega
    have h1 := inView_of_transformArg c (movePrev c.env s) (k - 1) hcw
      (by simp [movePrev, hi, hv, hc1]; left; ring)
    have h2 := inView_of_transformArg c (fireSnap c.env (movePrev c.env s))
      (k + oc.length - 1) hcw
      (by simp [fireSnap, runSnap, movePrev, hp, hi, hv, hl, hc2, mul_comm])
    rw [hv] at h1 h2
    refine ⟨hq, h1, h2, ?_⟩
    rw [h1, h2, ht]
    exact view_backward_wrap oc k hk

/-- Claim C5.  Seamless snap: for `N ≥ k = visibleCards` (and `N ≥ 1`, so that the
carousel exists) the `k` cards in view just before a wrap snap are, position by
position, the cards in view just after it.  Forward wrap (`moveNext` from
`index = N - 1`): positions `k+N ..` against positions `k ..`.  Backward wrap
(`movePrev` from `index = 0`): positions `k-1 ..` against positions `k+N-1 ..`. -/
theorem seamless_snap {α : Type} (k : Nat) (children : List α) (offsetWidth : α → Nat)
    (hN : 1 ≤ children.length) (hk : k ≤ children.length) :
    ∃ c, init k children offsetWidth = some c ∧
      view c.track (k + children.length) k = view c.track k k ∧
      view c.track (k - 1) k = view c.track (k + children.length - 1) k ∧
      (∀ s : State, s.pending = [] → s.index = (children.length : Int) - 1 →
        (moveNext c.env s).pending = [Snap.toFirst] ∧
        inView c (moveNext c.env s) = view c.track (k + children.length) k ∧
        inView c (fireSnap c.env (moveNext c.env s)) = view c.track k k ∧
        inView c (moveNext c.env s) = inView c (fireSnap c.env (moveNext c.env s))) ∧
      (∀ s : State, s.pending = [] → s.index = 0 →
        (movePrev c.env s).pending = [Snap.toLast] ∧
        inView c (movePrev c.env s) = view c.track (k - 1) k ∧
        inView c (fireSnap c.env (movePrev c.env s))
          = view c.track (k + children.length - 1) k ∧
        inView c (movePrev c.env s) = inView c (fireSnap c.env (movePrev c.env s))) := by
  obtain ⟨first, hf⟩ := head?_of_length_pos children hN
  refine ⟨_, init_eq_of_le k children offsetWidth first hf hk,
    view_forward_wrap children k hk, view_backward_wrap children k hk, ?_, ?_⟩
  · intro s hp hi
    exact forward_wrap_views _ children k hk rfl rfl rfl (by simp) s hp hi
  · intro s hp hi
    exact backward_wrap_views _ children k hk rfl rfl rfl (by simp) s hp hi

/-- Witness of C5: six cards, three visible. -/
theorem seamless_snap_witness :
    (1 ≤ [0, 1, 2, 3, 4, 5].length ∧ 3 ≤ [0, 1, 2, 3, 4, 5].length) ∧
    ∃ c, init 3 [0, 1, 2, 3, 4, 5] (fun _ => 300) = some c ∧
      view c.track (3 + [0, 1, 2, 3, 4, 5].length) 3 = view c.track 3 3 ∧
      view c.track (3 - 1) 3 = view c.track (3 + [0, 1, 2, 3, 4, 5].length - 1) 3 ∧
      (∀ s : State, s.pending = [] → s.index = (([0, 1, 2, 3, 4, 5].length : Nat) : Int) - 1 →
        (moveNext c.env s).pending = [Snap.toFirst] ∧
        inView c (moveNext c.env s) = view c.track (3 + [0, 1, 2, 3, 4, 5].length) 3 ∧
        inView c (fireSnap c.env (moveNext c.env s)) = view c.track 3 3 ∧
        inView c (moveNext c.env s) = inView c (fireSnap c.env (moveNext c.env s))) ∧
      (∀ s : State, s.pending = [] → s.index = 0 →
        (movePrev c.env s).pending = [Snap.toLast] ∧
        inView c (movePrev c.env s) = view c.track (3 - 1) 3 ∧
        inView c (fireSnap c.env (movePrev c.env s))
          = view c.track (3 + [0, 1, 2, 3, 4, 5].length - 1) 3 ∧
        inView c (movePrev c.env s) = inView c (fireSnap c.env (movePrev c.env s))) :=
  ⟨by decide, seamless_snap 3 [0, 1, 2, 3, 4, 5] (fun _ => 300) (by decide) (by decide)⟩

/-! ## Modal system: open and close -/

theorem runCallback_closed (m : Modal) (cb : Callback) (s : ModalState)
    (h : Closed m s) : Closed m (runCallback cb s) := by
  obtain ⟨h1, h2, h3⟩ := h
  cases cb with
  | activate x => exact ⟨h1, h2, h3⟩
  | teardown x =>
    refine ⟨?_, rfl, rfl⟩
    simp only [runCallback]
    split
    · intro hmem
      exact h1 (List.mem_of_mem_filter hmem)
    · exact h1

theorem runAll_cons (t : Timer) (ts : List Timer) (s : ModalState) :
    runAll (t :: ts) s = runAll ts (runCallback t.callback s) := rfl

theorem runAll_closed (m : Modal) (ts : List Timer) :
    ∀ s : ModalState, Closed m s → Closed m (runAll ts s) := by
  induction ts with
  | nil => intro s h; exact h
  | cons t ts ih =>
    intro s h
    exact ih _ (runCallback_closed m t.callback s h)

theorem teardown_closed (m : Modal) (s : ModalState) :
    Closed m (runCallback (Callback.teardown m) s) := by
  refine ⟨?_, rfl, rfl⟩
  simp only [runCallback]
  split
  · simp
  · assumption

theorem runAll_teardown_closed (m : Modal) (ts : List Timer) :
    ∀ s : ModalState, (∃ t ∈ ts, t.callback = Callback.teardown m) →
      Closed m (runAll ts s) := by
  induction ts with
  | nil => intro s h; obtain ⟨t, ht, _⟩ := h; simp at ht
  | cons t ts ih =>
    intro s h
    obtain ⟨u, hu, hcb⟩ := h
    rw [runAll_cons]
    rcases List.mem_cons.mp hu with rfl | hmem
    · rw [hcb]
      exact runAll_closed m ts _ (teardown_closed m s)
    · exact ih _ ⟨u, hmem, hcb⟩

theorem elapse_closed (m : Modal) (d : Nat) (s : ModalState) (h : Closed m s) :
    Closed m (elapse d s) :=
  runAll_closed m _ _ h

theorem hideModal_closed (m x : Modal) (s : ModalState) (h : Closed m s) :
    Closed m (hideModal x s) := h

theorem hideModal_then_elapse_closed (m : Modal) (d : Nat) (s : ModalState)
    (hd : 300 ≤ d) : Closed m (elapse d (hideModal m s)) := by
  apply runAll_teardown_closed
  refine ⟨{ due := s.now + 300, callback := Callback.teardown m }, ?_, rfl⟩
  simp only [hideModal, schedule, List.mem_filter, List.mem_append, List.mem_cons,
    decide_eq_true_eq]
  exact ⟨Or.inr (Or.inl trivial), by omega⟩

/-! ### Fields that callbacks and calls leave alone -/

theorem runCallback_timers (cb : Callback) (s : ModalState) :
    (runCallback cb s).timers = s.timers ∧ (runCallback cb s).now = s.now := by
  cases cb with
  | activate x => exact ⟨rfl, rfl⟩
  | teardown x =>
    simp only [runCallback]
    split <;> exact ⟨rfl, rfl⟩

theorem runAll_timers (ts : List Timer) :
    ∀ s : ModalState, (runAll ts s).timers = s.timers ∧ (runAll ts s).now = s.now := by
  induction ts with
  | nil => intro s; exact ⟨rfl, rfl⟩
  | cons t ts ih =>
    intro s
    rw [runAll_cons]
    obtain ⟨h1, h2⟩ := ih (runCallback t.callback s)
    obtain ⟨h3, h4⟩ := runCallback_timers t.callback s
    exact ⟨h1.trans h3, h2.trans h4⟩

theorem elapse_timers (d : Nat) (s : ModalState) :
    (elapse d s).timers = s.timers.filter (fun t => s.now + d < t.due) :=
  (runAll_timers _ _).1

theorem elapse_now (d : Nat) (s : ModalState) : (elapse d s).now = s.now + d :=
  (runAll_timers _ _).2

theorem mem_schedule (delay : Nat) (cb : Callback) (s : ModalState) (t : Timer) :
    t ∈ (schedule delay cb s).timers ↔
      t ∈ s.timers ∨ t = { due := s.now + delay, callback := cb } := by
  simp only [schedule, List.mem_append, List.mem_cons, List.mem_filter, decide_eq_true_eq]
  constructor
  · rintro (⟨h, _⟩ | h | ⟨h, _⟩)
    · exact Or.inl h
    · exact Or.inr h
    · exact Or.inl h
  · rintro (h | h)
    · by_cases hd : t.due ≤ s.now + delay
      · exact Or.inl ⟨h, hd⟩
      · exact Or.inr (Or.inr ⟨h, by omega⟩)
    · exact Or.inr (Or.inl h)

theorem onlyAbout_of_nil (m : Modal) (s : ModalState) (h : s.timers = []) :
    OnlyAbout m s := by
  intro t ht
  rw [h] at ht
  simp at ht

theorem showModal_onlyAbout (m : Modal) (s : ModalState) (h : OnlyAbout m s) :
    OnlyAbout m (showModal m s) := by
  intro t ht
  rcases (mem_schedule 10 _ _ t).mp ht with h1 | h1
  · exact h t h1
  · subst h1
    exact ⟨Or.inl rfl, by show s.now + 10 ≤ s.now + 300; omega⟩

theorem hideModal_onlyAbout (m : Modal) (s : ModalState) (h : OnlyAbout m s) :
    OnlyAbout m (hideModal m s) := by
  intro t ht
  rcases (mem_schedule 300 _ _ t).mp ht with h1 | h1
  · exact h t h1
  · subst h1
    exact ⟨Or.inr rfl, Nat.le_refl _⟩

theorem elapse_onlyAbout (m : Modal) (d : Nat) (s : ModalState) (h : OnlyAbout m s) :
    OnlyAbout m (elapse d s) := by
  intro t ht
  rw [elapse_timers] at ht
  obtain ⟨h1, h2⟩ := h t (List.mem_of_mem_filter ht)
  refine ⟨h1, ?_⟩
  rw [elapse_now]
  omega

theorem elapse_timers_nil (m : Modal) (d : Nat) (s : ModalState) (h : OnlyAbout m s)
    (hd : 300 ≤ d) : (elapse d s).timers = [] := by
  rw [elapse_timers, List.filter_eq_nil_iff]
  intro t ht
  have := (h t ht).2
  simp only [decide_eq_true_eq]
  omega

theorem filter_ne_idem (m : Modal) (xs : List Modal) :
    (xs.filter (fun x => x ≠ m)).filter (fun x => x ≠ m) = xs.filter (fun x => x ≠ m) := by
  rw [List.filter_filter]
  congr 1
  funext x
  simp

theorem not_mem_filter_ne (m : Modal) (xs : List Modal) :
    m ∉ xs.filter (fun x => x ≠ m) := by
  simp

theorem filter_ne_of_not_mem (m : Modal) (xs : List Modal) (h : m ∉ xs) :
    xs.filter (fun x => x ≠ m) = xs := by
  rw [List.filter_eq_self]
  intro a ha
  have : a ≠ m := fun e => h (e ▸ ha)
  simpa using this

theorem runCallback_attached_about (m : Modal) (cb : Callback) (s : ModalState)
    (h : cb = Callback.activate m ∨ cb = Callback.teardown m) :
    (runCallback cb s).attached = s.attached ∨
    (runCallback cb s).attached = s.attached.filter (fun x => x ≠ m) := by
  rcases h with rfl | rfl
  · exact Or.inl rfl
  · simp only [runCallback]
    split
    · exact Or.inr rfl
    · exact Or.inl rfl

theorem runAll_attached_about (m : Modal) (ts : List Timer) :
    ∀ s : ModalState,
      (∀ t ∈ ts, t.callback = Callback.activate m ∨ t.callback = Callback.teardown m) →
      (runAll ts s).attached = s.attached ∨
      (runAll ts s).attached = s.attached.filter (fun x => x ≠ m) := by
  induction ts with
  | nil => intro s _; exact Or.inl rfl
  | cons t ts ih =>
    intro s h
    rw [runAll_cons]
    have h1 := runCallback_attached_about m t.callback s (h t (List.mem_cons_self _ _))
    have h2 := ih (runCallback t.callback s)
      (fun u hu => h u (List.mem_cons_of_mem _ hu))
    rcases h1 with h1 | h1 <;> rcases h2 with h2 | h2
    · exact Or.inl (h2.trans h1)
    · exact Or.inr (by rw [h2, h1])
    · exact Or.inr (h2.trans h1)
    · exact Or.inr (by rw [h2, h1, filter_ne_idem])

theorem elapse_attached_about (m : Modal) (d : Nat) (s : ModalState)
    (h : OnlyAbout m s) :
    (elapse d s).attached = s.attached ∨
    (elapse d s).attached = s.attached.filter (fun x => x ≠ m) :=
  runAll_attached_about m _ _ (fun t ht => (h t (List.mem_of_mem_filter ht)).1)

theorem round_trip_exact (s : ModalState) (m : Modal) (d1 d2 : Nat)
    (hq : s.timers = []) (h2 : 300 ≤ d2) :
    (elapse d2 (hideModal m (elapse d1 (showModal m s)))).attached
        = s.attached.filter (fun x => x ≠ m) ∧
    (elapse d2 (hideModal m (elapse d1 (showModal m s)))).timers = [] := by
  have ho : OnlyAbout m (hideModal m (elapse d1 (showModal m s))) :=
    hideModal_onlyAbout m _ (elapse_onlyAbout m d1 _
      (showModal_onlyAbout m s (onlyAbout_of_nil m s hq)))
  refine ⟨?_, elapse_timers_nil m d2 _ ho h2⟩
  have hc := (hideModal_then_elapse_closed m d2 (elapse d1 (showModal m s)) h2).1
  have h1 : (elapse d1 (showModal m s)).attached
        = s.attached.filter (fun x => x ≠ m) ++ [m] ∨
      (elapse d1 (showModal m s)).attached = s.attached.filter (fun x => x ≠ m) := by
    rcases elapse_attached_about m d1 (showModal m s)
      (showModal_onlyAbout m s (onlyAbout_of_nil m s hq)) with h | h
    · exact Or.inl h
    · right
      rw [h]
      show ((s.attached.filter (fun x => x ≠ m)) ++ [m]).filter (fun x => x ≠ m) = _
      rw [List.filter_append, filter_ne_idem]
      simp
  have h3 := elapse_attached_about m d2 _ ho
  have hh : (hideModal m (elapse d1 (showModal m s))).attached
      = (elapse d1 (showModal m s)).attached := rfl
  rw [hh] at h3
  rcases h1 with h1 | h1 <;> rcases h3 with h3 | h3
  · rw [h3, h1] at hc
    simp at hc
  · rw [h3, h1, List.filter_append, filter_ne_idem]
    simp
  · rw [h3, h1]
  · rw [h3, h1, filter_ne_idem]

theorem second_hide_exact (c : ModalState) (m : Modal) (d : Nat)
    (hc : Closed m c) (hq : c.timers = []) (hd : 300 ≤ d) :
    (elapse d (hideModal m c)).attached = c.attached ∧
    (elapse d (hideModal m c)).overflow = c.overflow ∧
    (elapse d (hideModal m c)).currentModal = c.currentModal ∧
    (elapse d (hideModal m c)).timers = [] := by
  have ho : OnlyAbout m (hideModal m c) :=
    hideModal_onlyAbout m c (onlyAbout_of_nil m c hq)
  obtain ⟨k1, k2, k3⟩ := hideModal_then_elapse_closed m d c hd
  refine ⟨?_, by rw [k2, hc.2.1], by rw [k3, hc.2.2], elapse_timers_nil m d _ ho hd⟩
  have hh : (hideModal m c).attached = c.attached := rfl
  rcases elapse_attached_about m d _ ho with h | h
  · rw [h, hh]
  · rw [h, hh, filter_ne_of_not_mem m _ hc.1]

/-- Claim C6.  Round trip and idempotent close: `showModal(m)`, then (any time
later) `hideModal(m)`, then 300 ms or more leave `m` out of the document, the
scroll released and `currentModal = null`; a second `hideModal(m)` keeps this so,
both before and after its own teardown callback.  When no callback was scheduled
at the start, the second close changes none of the document, the scroll lock and
`currentModal`, and no callback is left. -/
theorem modal_round_trip (s : ModalState) (m : Modal) (d1 d2 d3 : Nat)
    (h2 : 300 ≤ d2) (h3 : 300 ≤ d3) :
    Closed m (elapse d2 (hideModal m (elapse d1 (showModal m s)))) ∧
    Closed m (hideModal m (elapse d2 (hideModal m (elapse d1 (showModal m s))))) ∧
    Closed m (elapse d3
      (hideModal m (elapse d2 (hideModal m (elapse d1 (showModal m s)))))) ∧
    (s.timers = [] →
      (elapse d2 (hideModal m (elapse d1 (showModal m s)))).attached
        = s.attached.filter (fun x => x ≠ m) ∧
      (elapse d2 (hideModal m (elapse d1 (showModal m s)))).timers = [] ∧
      (elapse d3 (hideModal m (elapse d2 (hideModal m (elapse d1 (showModal m s)))))).attached
        = (elapse d2 (hideModal m (elapse d1 (showModal m s)))).attached ∧
      (elapse d3 (hideModal m (elapse d2 (hideModal m (elapse d1 (showModal m s)))))).overflow
        = (elapse d2 (hideModal m (elapse d1 (showModal m s)))).overflow ∧
      (elapse d3
          (hideModal m (elapse d2 (hideModal m (elapse d1 (showModal m s)))))).currentModal
        = (elapse d2 (hideModal m (elapse d1 (showModal m s)))).currentModal ∧
      (elapse d3 (hideModal m (elapse d2 (hideModal m (elapse d1 (showModal m s)))))).timers
        = []) := by
  have hc := hideModal_then_elapse_closed m d2 (elapse d1 (showModal m s)) h2
  refine ⟨hc, hideModal_closed m m _ hc, hideModal_then_elapse_closed m d3 _ h3, ?_⟩
  intro hq
  obtain ⟨e1, e2⟩ := round_trip_exact s m d1 d2 hq h2
  obtain ⟨f1, f2, f3, f4⟩ := second_hide_exact _ m d3 hc e2 h3
  exact ⟨e1, e2, f1, f2, f3, f4⟩

/-- Witness of C6: from page load, open node 1, close it 50 ms later, wait 300 ms,
close it again, wait 300 ms. -/
theorem modal_round_trip_witness :
    (300 ≤ 300 ∧ ModalState.initial.timers = []) ∧
    (elapse 300 (hideModal 1 (elapse 50 (showModal 1 ModalState.initial)))).attached = [] ∧
    (elapse 300 (hideModal 1 (elapse 300
      (hideModal 1 (elapse 50 (showModal 1 ModalState.initial)))))).attached
      = (elapse 300 (hideModal 1 (elapse 50 (showModal 1 ModalState.initial)))).attached :=
  ⟨⟨by decide, rfl⟩,
    ((modal_round_trip ModalState.initial 1 50 300 300 (by decide) (by decide)).2.2.2 rfl).1,
    ((modal_round_trip ModalState.initial 1 50 300 300 (by decide) (by decide)).2.2.2 rfl).2.2.1⟩

/-! ## Modal system: how often the teardown runs -/

theorem removals_log_removed (m : Modal) (s : ModalState) (l : List Effect)
    (h : s.log = l ++ [Effect.removed m, Effect.released m]) :
    removals m s = l.count (Effect.removed m) + 1 := by
  simp [removals, h, List.count_append, List.count_cons]

theorem removals_log_released (m x : Modal) (s : ModalState) (l : List Effect)
    (h : s.log = l ++ [Effect.released x]) :
    removals m s = l.count (Effect.removed m) := by
  simp [removals, h, List.count_append, List.count_cons]

theorem releases_log_removed (m : Modal) (s : ModalState) (l : List Effect)
    (h : s.log = l ++ [Effect.removed m, Effect.released m]) :
    releases s = (l.filter (fun e => match e with
      | Effect.released _ => true
      | Effect.removed _ => false)).length + 1 := by
  simp [releases, h, List.filter_append, List.filter_cons]

theorem releases_log_released (x : Modal) (s : ModalState) (l : List Effect)
    (h : s.log = l ++ [Effect.released x]) :
    releases s = (l.filter (fun e => match e with
      | Effect.released _ => true
      | Effect.removed _ => false)).length + 1 := by
  simp [releases, h, List.filter_append, List.filter_cons]

theorem teardown_of_stillOpen (m : Modal) (r q : Nat) (s : ModalState)
    (h : StillOpen m r q s) : TornDown m r q (runCallback (Callback.teardown m) s) := by
  obtain ⟨h1, _, h3, h4⟩ := h
  refine ⟨teardown_closed m s, ?_, ?_⟩
  · rw [removals_log_removed m _ s.log (by simp [runCallback, h1])]
    exact congrArg (· + 1) h3
  · rw [releases_log_removed m _ s.log (by simp [runCallback, h1])]
    exact Nat.le_of_eq (congrArg (· + 1) h4.symm)

theorem teardown_of_tornDown (m : Modal) (r q : Nat) (s : ModalState)
    (h : TornDown m r q s) : TornDown m r q (runCallback (Callback.teardown m) s) := by
  obtain ⟨h1, h3, h4⟩ := h
  refine ⟨teardown_closed m s, ?_, ?_⟩
  · rw [removals_log_released m m _ s.log (by simp [runCallback, h1.1])]
    exact h3
  · rw [releases_log_released m _ s.log (by simp [runCallback, h1.1])]
    exact Nat.le_succ_of_le h4

theorem runAll_tornDown (m : Modal) (r q : Nat) (ts : List Timer) :
    ∀ s : ModalState,
      (∀ t ∈ ts, t.callback = Callback.activate m ∨ t.callback = Callback.teardown m) →
      TornDown m r q s → TornDown m r q (runAll ts s) := by
  induction ts with
  | nil => intro s _ h; exact h
  | cons t ts ih =>
    intro s hab h
    rw [runAll_cons]
    apply ih _ (fun u hu => hab u (List.mem_cons_of_mem _ hu))
    rcases hab t (List.mem_cons_self _ _) with hcb | hcb
    · rw [hcb]; exact h
    · rw [hcb]; exact teardown_of_tornDown m r q s h

theorem runAll_stillOpen (m : Modal) (r q : Nat) (ts : List Timer) :
    ∀ s : ModalState,
      (∀ t ∈ ts, t.callback = Callback.activate m ∨ t.callback = Callback.teardown m) →
      StillOpen m r q s →
      (StillOpen m r q (runAll ts s) ∧ ∀ t ∈ ts, t.callback ≠ Callback.teardown m) ∨
      (TornDown m r q (runAll ts s) ∧ ∃ t ∈ ts, t.callback = Callback.teardown m) := by
  induction ts with
  | nil =>
    intro s _ h
    exact Or.inl ⟨h, fun t ht => by simp at ht⟩
  | cons t ts ih =>
    intro s hab h
    rw [runAll_cons]
    have hrest : ∀ u ∈ ts,
        u.callback = Callback.activate m ∨ u.callback = Callback.teardown m :=
      fun u hu => hab u (List.mem_cons_of_mem _ hu)
    rcases hab t (List.mem_cons_self _ _) with hcb | hcb
    · rw [hcb]
      have hstep : StillOpen m r q (runCallback (Callback.activate m) s) := h
      rcases ih _ hrest hstep with ⟨k1, k2⟩ | ⟨k1, u, hu, k2⟩
      · left
        refine ⟨k1, ?_⟩
        intro u hu
        rcases List.mem_cons.mp hu with rfl | hmem
        · rw [hcb]; intro hne; cases hne
        · exact k2 u hmem
      · exact Or.inr ⟨k1, u, List.mem_cons_of_mem _ hu, k2⟩
    · rw [hcb]
      exact Or.inr ⟨runAll_tornDown m r q ts _ hrest (teardown_of_stillOpen m r q s h),
        t, List.mem_cons_self _ _, hcb⟩

theorem elapse_tornDown (m : Modal) (r q d : Nat) (s : ModalState)
    (ho : OnlyAbout m s) (h : TornDown m r q s) : TornDown m r q (elapse d s) :=
  runAll_tornDown m r q _ _ (fun t ht => (ho t (List.mem_of_mem_filter ht)).1) h

theorem elapse_leaving (m : Modal) (r q d : Nat) (s : ModalState)
    (ho : OnlyAbout m s) (h : Leaving m r q s) : Leaving m r q (elapse d s) := by
  rcases h with h | ⟨h, t0, ht0, hcb0⟩
  · exact Or.inl (elapse_tornDown m r q d s ho h)
  · have hab : ∀ t ∈ s.timers.filter (fun t => t.due ≤ s.now + d),
        t.callback = Callback.activate m ∨ t.callback = Callback.teardown m :=
      fun t ht => (ho t (List.mem_of_mem_filter ht)).1
    have hstart : StillOpen m r q
        { s with now := s.now + d,
                 timers := s.timers.filter (fun t => s.now + d < t.due) } := h
    rcases runAll_stillOpen m r q _ _ hab hstart with ⟨k1, k2⟩ | ⟨k1, _⟩
    · right
      refine ⟨k1, t0, ?_, hcb0⟩
      rw [elapse_timers]
      apply List.mem_filter.mpr
      refine ⟨ht0, ?_⟩
      by_cases hdue : t0.due ≤ s.now + d
      · exact absurd hcb0 (k2 t0 (List.mem_filter.mpr ⟨ht0, by simpa using hdue⟩))
      · simp only [decide_eq_true_eq]
        omega
    · exact Or.inl k1

theorem hideModal_stillOpen (m : Modal) (r q : Nat) (s : ModalState)
    (h : StillOpen m r q s) :
    StillOpen m r q (hideModal m s) ∧
    ∃ t ∈ (hideModal m s).timers, t.callback = Callback.teardown m :=
  ⟨h, { due := s.now + 300, callback := Callback.teardown m },
    (mem_schedule 300 _ _ _).mpr (Or.inr rfl), rfl⟩

theorem dispatch_stillOpen (m : Modal) (r q : Nat) (t : Trigger) (s : ModalState)
    (ho : OnlyAbout m s) (h : StillOpen m r q s) :
    Leaving m r q (dispatch m t s) ∧ OnlyAbout m (dispatch m t s) := by
  have hcur : s.currentModal = some m := h.2.1
  cases t with
  | closeButton =>
    exact ⟨Or.inr (hideModal_stillOpen m r q s h), hideModal_onlyAbout m s ho⟩
  | backdrop =>
    have h1 := hideModal_stillOpen m r q s h
    have hcur1 : (hideModal m s).currentModal = some m := hcur
    simp only [dispatch, hcur1]
    exact ⟨Or.inr (hideModal_stillOpen m r q _ h1.1),
      hideModal_onlyAbout m _ (hideModal_onlyAbout m s ho)⟩
  | escape =>
    simp only [dispatch, hcur]
    exact ⟨Or.inr (hideModal_stillOpen m r q s h), hideModal_onlyAbout m s ho⟩

theorem dispatch_tornDown (m : Modal) (r q : Nat) (t : Trigger) (s : ModalState)
    (ho : OnlyAbout m s) (h : TornDown m r q s) :
    TornDown m r q (dispatch m t s) ∧ OnlyAbout m (dispatch m t s) := by
  have hcur : s.currentModal = none := h.1.2.2
  cases t with
  | closeButton => exact ⟨h, hideModal_onlyAbout m s ho⟩
  | backdrop =>
    have hcur1 : (hideModal m s).currentModal = none := hcur
    simp only [dispatch, hcur1]
    exact ⟨h, hideModal_onlyAbout m s ho⟩
  | escape =>
    simp only [dispatch, hcur]
    exact ⟨h, ho⟩

theorem dispatch_leaving (m : Modal) (r q : Nat) (t : Trigger) (s : ModalState)
    (ho : OnlyAbout m s) (h : Leaving m r q s) :
    Leaving m r q (dispatch m t s) ∧ OnlyAbout m (dispatch m t s) := by
  rcases h with h | ⟨h, _⟩
  · obtain ⟨k1, k2⟩ := dispatch_tornDown m r q t s ho h
    exact ⟨Or.inl k1, k2⟩
  · exact dispatch_stillOpen m r q t s ho h

theorem dismiss_leaving (m : Modal) (r q : Nat) (trig : List (Nat × Trigger)) :
    ∀ s : ModalState, OnlyAbout m s → Leaving m r q s →
      Leaving m r q (dismiss m trig s) ∧ OnlyAbout m (dismiss m trig s) := by
  induction trig with
  | nil => intro s ho h; exact ⟨h, ho⟩
  | cons dt rest ih =>
    intro s ho h
    obtain ⟨d, t⟩ := dt
    obtain ⟨k1, k2⟩ := dispatch_leaving m r q t (elapse d s)
      (elapse_onlyAbout m d s ho) (elapse_leaving m r q d s ho h)
    exact ih _ k2 k1

theorem showModal_stillOpen (m : Modal) (s : ModalState) :
    StillOpen m (removals m s) (releases s) (showModal m s) := by
  refine ⟨?_, rfl, rfl, rfl⟩
  show m ∈ s.attached.filter (fun x => x ≠ m) ++ [m]
  simp

theorem elapse_after_show_stillOpen (m : Modal) (d : Nat) (s : ModalState)
    (hq : s.timers = []) :
    StillOpen m (removals m s) (releases s) (elapse d (showModal m s)) := by
  have ho := showModal_onlyAbout m s (onlyAbout_of_nil m s hq)
  have hab : ∀ t ∈ (showModal m s).timers.filter
        (fun t => t.due ≤ (showModal m s).now + d),
      t.callback = Callback.activate m ∨ t.callback = Callback.teardown m :=
    fun t ht => (ho t (List.mem_of_mem_filter ht)).1
  have hstart : StillOpen m (removals m s) (releases s)
      { showModal m s with
        now := (showModal m s).now + d
        timers := (showModal m s).timers.filter
          (fun t => (showModal m s).now + d < t.due) } := showModal_stillOpen m s
  rcases runAll_stillOpen m _ _ _ _ hab hstart with ⟨k1, _⟩ | ⟨_, t, ht, hcb⟩
  · exact k1
  · exfalso
    have hmem := (mem_schedule 10 _ _ t).mp (List.mem_of_mem_filter ht)
    rcases hmem with hmem | hmem
    · simp [hq] at hmem
    · rw [hmem] at hcb
      cases hcb

/-- Claim C7, as stated, fails: one click on the backdrop of a video modal reaches
two listeners, each calls `hideModal`, and each call schedules its own teardown
callback: the scroll release and the clearing of `currentModal` run twice (the
removal from the document runs once). -/
theorem backdrop_click_releases_twice :
    releases (elapse 300 (dismiss 1 [(50, Trigger.backdrop)]
      (showModal 1 ModalState.initial))) = 2 ∧
    removals 1 (elapse 300 (dismiss 1 [(50, Trigger.backdrop)]
      (showModal 1 ModalState.initial))) = 1 := by
  decide

/-- Claim C7, amended.  For a modal opened while no callback is scheduled and any
non-empty sequence of dismissal triggers on it, at any pace: once 300 ms have
passed after the last trigger, the removal from the document has run exactly
once, the scroll release and clearing of `currentModal` have run at least once,
the node is out of the document, the scroll is released, `currentModal` is
`null`, and no callback is left. -/
theorem teardown_counts (s0 : ModalState) (m : Modal) (d : Nat)
    (first : Nat × Trigger) (rest : List (Nat × Trigger))
    (hq : s0.timers = []) (hd : 300 ≤ d) :
    removals m (elapse d (dismiss m (first :: rest) (showModal m s0)))
      = removals m s0 + 1 ∧
    releases s0 + 1 ≤ releases (elapse d (dismiss m (first :: rest) (showModal m s0))) ∧
    Closed m (elapse d (dismiss m (first :: rest) (showModal m s0))) ∧
    (elapse d (dismiss m (first :: rest) (showModal m s0))).timers = [] := by
  obtain ⟨d0, t0⟩ := first
  have ho0 := showModal_onlyAbout m s0 (onlyAbout_of_nil m s0 hq)
  have hopen := elapse_after_show_stillOpen m d0 s0 hq
  obtain ⟨k1, k2⟩ := dispatch_stillOpen m _ _ t0 _ (elapse_onlyAbout m d0 _ ho0) hopen
  obtain ⟨l1, l2⟩ := dismiss_leaving m _ _ rest _ k2 k1
  have hfin := elapse_leaving m _ _ d _ l2 l1
  have hnil := elapse_timers_nil m d _ l2 hd
  have hdis : dismiss m ((d0, t0) :: rest) (showModal m s0)
      = dismiss m rest (dispatch m t0 (elapse d0 (showModal m s0))) := rfl
  rw [hdis]
  rcases hfin with ⟨hc, hr, hrel⟩ | ⟨_, t, ht, _⟩
  · exact ⟨hr, hrel, hc, hnil⟩
  · rw [hnil] at ht
    simp at ht

/-- Witness of C7 (amended): close button, then Escape 100 ms later, then the
backdrop 100 ms after that. -/
theorem teardown_counts_witness :
    (ModalState.initial.timers = [] ∧ 300 ≤ 300) ∧
    removals 1 (elapse 300 (dismiss 1
        [(50, Trigger.closeButton), (100, Trigger.escape), (100, Trigger.backdrop)]
        (showModal 1 ModalState.initial)))
      = removals 1 ModalState.initial + 1 :=
  ⟨⟨rfl, by decide⟩,
    (teardown_counts ModalState.initial 1 300 (50, Trigger.closeButton)
      [(100, Trigger.escape), (100, Trigger.backdrop)] rfl (by decide)).1⟩

/-! ## Modal system: one modal at a time -/

theorem runCallback_attached_length (cb : Callback) (s : ModalState) :
    (runCallback cb s).attached.length ≤ s.attached.length := by
  cases cb with
  | activate x => exact Nat.le_refl _
  | teardown x =>
    simp only [runCallback]
    split
    · exact List.length_filter_le _ _
    · exact Nat.le_refl _

theorem runAll_attached_length (ts : List Timer) :
    ∀ s : ModalState, (runAll ts s).attached.length ≤ s.attached.length := by
  induction ts with
  | nil => intro s; exact Nat.le_refl _
  | cons t ts ih =>
    intro s
    rw [runAll_cons]
    exact Nat.le_trans (ih _) (runCallback_attached_length t.callback s)

theorem elapse_attached_length (d : Nat) (s : ModalState) :
    (elapse d s).attached.length ≤ s.attached.length :=
  runAll_attached_length _ _

/-- Claim C8, as stated, fails: `showModal` never closes anything, so two calls in
a row leave both nodes in the document. -/
theorem two_modals_attached :
    (runActions [Action.callShow 1, Action.callShow 2] ModalState.initial).attached
      = [1, 2] := by
  decide

/-- Claim C8, amended.  In every state reached from page load by calls of
`showModal` made only while no modal node is in the document, calls of
`hideModal` and timer callbacks, at most one modal node is in the document. -/
theorem single_modal (s : ModalState) (h : OpensWhenClosed s) :
    s.attached.length ≤ 1 := by
  induction h with
  | start => exact Nat.zero_le _
  | opened s m _ hclosed _ =>
    show (s.attached.filter (fun x => x ≠ m) ++ [m]).length ≤ 1
    rw [hclosed]
    exact Nat.le_refl _
  | hidden s m _ ih => exact ih
  | waited s d _ ih => exact Nat.le_trans (elapse_attached_length d s) ih

/-- Witness of C8 (amended): open node 1, close it, wait, open node 2. -/
theorem single_modal_witness :
    OpensWhenClosed (showModal 2 (elapse 300 (hideModal 1 (showModal 1 ModalState.initial)))) ∧
    (showModal 2 (elapse 300 (hideModal 1 (showModal 1 ModalState.initial)))).attached.length
      ≤ 1 :=
  ⟨OpensWhenClosed.opened _ 2
      (OpensWhenClosed.waited _ 300
        (OpensWhenClosed.hidden _ 1
          (OpensWhenClosed.opened _ 1 OpensWhenClosed.start rfl)))
      (by decide),
    single_modal _
      (OpensWhenClosed.opened _ 2
        (OpensWhenClosed.waited _ 300
          (OpensWhenClosed.hidden _ 1
            (OpensWhenClosed.opened _ 1 OpensWhenClosed.start rfl)))
        (by decide))⟩

/-! ## Carousel: the auto-advance timer -/

theorem handle_mode (afterEnter : Bool) (ev : MouseEvent) (s : IntervalState)
    (hm : TimerMode afterEnter s)
    (hok : ev = MouseEvent.mouseleave → afterEnter = true) :
    TimerMode (decide (ev = MouseEvent.mouseenter)) (ev.handle s) := by
  cases ev with
  | mouseenter =>
    show (stopCarousel s).running = []
    cases afterEnter with
    | true =>
      have hr : s.running = [] := hm
      unfold stopCarousel
      cases s.interval <;> simp [hr]
    | false =>
      obtain ⟨h, hi, hr⟩ : ∃ h, s.interval = some h ∧ s.running = [h] := hm
      simp [stopCarousel, hi, hr]
  | mouseleave =>
    have ht := hok rfl
    subst ht
    have hr : s.running = [] := hm
    refine ⟨s.nextHandle, rfl, ?_⟩
    show s.running ++ [s.nextHandle] = [s.nextHandle]
    rw [hr]
    rfl

theorem foldl_mode (evs : List MouseEvent) :
    ∀ (afterEnter : Bool) (s : IntervalState),
      leaveFollowsEnter afterEnter evs = true → TimerMode afterEnter s →
      TimerMode (endsAfterEnter afterEnter evs)
        (evs.foldl (fun s ev => ev.handle s) s) := by
  induction evs with
  | nil => intro a s _ hm; exact hm
  | cons ev rest ih =>
    intro a s hl hm
    cases ev with
    | mouseenter =>
      exact ih true _ hl (handle_mode a MouseEvent.mouseenter s hm (fun h => by cases h))
    | mouseleave =>
      have hl2 : (a && leaveFollowsEnter false rest) = true := hl
      rw [Bool.and_eq_true] at hl2
      exact ih false _ hl2.2 (handle_mode a MouseEvent.mouseleave s hm (fun _ => hl2.1))

theorem endsAfterEnter_append_enter (pre : List MouseEvent) :
    ∀ a : Bool, endsAfterEnter a (pre ++ [MouseEvent.mouseenter]) = true := by
  induction pre with
  | nil => intro a; rfl
  | cons ev rest ih =>
    intro a
    cases ev
    · exact ih true
    · exact ih false

theorem loaded_mode : TimerMode false IntervalState.loaded :=
  ⟨1, rfl, rfl⟩

theorem mode_running_le_one (a : Bool) (s : IntervalState) (h : TimerMode a s) :
    s.running.length ≤ 1 := by
  cases a with
  | true =>
    have hr : s.running = [] := h
    rw [hr]
    exact Nat.zero_le _
  | false =>
    obtain ⟨x, _, hr⟩ : ∃ x, s.interval = some x ∧ s.running = [x] := h
    rw [hr]
    exact Nat.le_refl _

/-- Claim C9, as stated, fails: a `mouseleave` that does not follow a `mouseenter`
starts a second interval next to the one of page load, and a later `mouseenter`
clears only the newer of the two. -/
theorem mouseleave_first_duplicates :
    (hover [MouseEvent.mouseleave]).running = [1, 2] ∧
    (hover [MouseEvent.mouseleave, MouseEvent.mouseenter]).running = [1] := by
  decide

/-- Claim C9, amended.  After any sequence of hover events in which every
`mouseleave` comes directly after a `mouseenter`, at most one auto-advance
interval is running, and none when the last event was a `mouseenter`. -/
theorem no_duplicate_timers (evs : List MouseEvent)
    (h : leaveFollowsEnter false evs = true) :
    (hover evs).running.length ≤ 1 ∧
    (∀ pre, evs = pre ++ [MouseEvent.mouseenter] → (hover evs).running = []) := by
  have hm := foldl_mode evs false IntervalState.loaded h loaded_mode
  refine ⟨mode_running_le_one _ _ hm, ?_⟩
  intro pre hpre
  rw [hpre, endsAfterEnter_append_enter] at hm
  rw [hpre]
  exact hm

/-- Witness of C9 (amended): enter, leave, enter, enter. -/
theorem no_duplicate_timers_witness :
    leaveFollowsEnter false [MouseEvent.mouseenter, MouseEvent.mouseleave,
      MouseEvent.mouseenter, MouseEvent.mouseenter] = true ∧
    (hover [MouseEvent.mouseenter, MouseEvent.mouseleave,
      MouseEvent.mouseenter, MouseEvent.mouseenter]).running.length ≤ 1 :=
  ⟨by decide,
    (no_duplicate_timers [MouseEvent.mouseenter, MouseEvent.mouseleave,
      MouseEvent.mouseenter, MouseEvent.mouseenter] (by decide)).1⟩

/-! ## Directions -/

theorem afterFirst_append (sep : Char) (xs ys : List Char) (h : sep ∉ xs) :
    afterFirst sep (xs ++ sep :: ys) = ys := by
  induction xs with
  | nil => simp [afterFirst]
  | cons c cs ih =>
    have hc : c ≠ sep := fun e => h (e ▸ List.mem_cons_self _ _)
    have hcs : sep ∉ cs := fun hm => h (List.mem_cons_of_mem _ hm)
    simp [afterFirst, hc, ih hcs]

theorem splitOnChar_of_not_mem (sep : Char) (xs : List Char) (h : sep ∉ xs) :
    splitOnChar sep xs = [xs] := by
  induction xs with
  | nil => rfl
  | cons c cs ih =>
    have hc : c ≠ sep := fun e => h (e ▸ List.mem_cons_self _ _)
    have hcs : sep ∉ cs := fun hm => h (List.mem_cons_of_mem _ hm)
    simp [splitOnChar, hc, ih hcs]

theorem splitOnChar_append (sep : Char) (xs ys : List Char) (h : sep ∉ xs) :
    splitOnChar sep (xs ++ sep :: ys) = xs :: splitOnChar sep ys := by
  induction xs with
  | nil => simp [splitOnChar]
  | cons c cs ih =>
    have hc : c ≠ sep := fun e => h (e ▸ List.mem_cons_self _ _)
    have hcs : sep ∉ cs := fun hm => h (List.mem_cons_of_mem _ hm)
    simp [splitOnChar, hc, ih hcs]

theorem takeWhile_append_stop (p : Char → Bool) (k v : List Char) (x : Char)
    (hk : ∀ c ∈ k, p c = true) (hx : p x = false) :
    (k ++ x :: v).takeWhile p = k := by
  induction k with
  | nil => simp [List.takeWhile_cons, hx]
  | cons c cs ih =>
    have hc := hk c (List.mem_cons_self _ _)
    have hcs : ∀ c ∈ cs, p c = true := fun d hd => hk d (List.mem_cons_of_mem _ hd)
    simp [List.takeWhile_cons, hc, ih hcs]

theorem dropWhile_append_stop (p : Char → Bool) (k v : List Char) (x : Char)
    (hk : ∀ c ∈ k, p c = true) (hx : p x = false) :
    (k ++ x :: v).dropWhile p = x :: v := by
  induction k with
  | nil => simp [List.dropWhile_cons, hx]
  | cons c cs ih =>
    have hc := hk c (List.mem_cons_self _ _)
    have hcs : ∀ c ∈ cs, p c = true := fun d hd => hk d (List.mem_cons_of_mem _ hd)
    simp [List.dropWhile_cons, hc, ih hcs]

theorem ne_of_not_mem (k : List Char) (h : '=' ∉ k) :
    ∀ c ∈ k, (fun c : Char => decide (c ≠ '=')) c = true := by
  intro c hc
  have : c ≠ '=' := fun e => h (e ▸ hc)
  simpa using this

theorem keyOf_append (k v : List Char) (h : '=' ∉ k) :
    keyOf (k ++ '=' :: v) = k :=
  takeWhile_append_stop _ k v '=' (ne_of_not_mem k h) (by simp)

theorem valueOf_append (k v : List Char) (h : '=' ∉ k) :
    valueOf (k ++ '=' :: v) = v := by
  unfold valueOf
  rw [dropWhile_append_stop _ k v '=' (ne_of_not_mem k h) (by simp)]
  rfl

theorem queryParams_of_url (url : String) (origin dest : List Char)
    (hurl : url.data = "https://www.google.com/maps/dir/".data
      ++ '?' :: (("api".data ++ '=' :: "1".data)
        ++ '&' :: (("origin".data ++ '=' :: origin)
        ++ '&' :: ("destination".data ++ '=' :: dest))))
    (ho : '&' ∉ origin) (hd : '&' ∉ dest) :
    queryParam "destination" url = some (String.mk dest) ∧
    queryParam "origin" url = some (String.mk origin) := by
  have hq : afterFirst '?' url.data
      = ("api".data ++ '=' :: "1".data)
        ++ '&' :: (("origin".data ++ '=' :: origin)
        ++ '&' :: ("destination".data ++ '=' :: dest)) := by
    rw [hurl, afterFirst_append '?' _ _ (by decide)]
  have ho2 : '&' ∉ "origin".data ++ '=' :: origin := by
    intro hm
    rcases List.mem_append.mp hm with h1 | h1
    · revert h1; decide
    · rcases List.mem_cons.mp h1 with h2 | h2
      · revert h2; decide
      · exact ho h2
  have hd2 : '&' ∉ "destination".data ++ '=' :: dest := by
    intro hm
    rcases List.mem_append.mp hm with h1 | h1
    · revert h1; decide
    · rcases List.mem_cons.mp h1 with h2 | h2
      · revert h2; decide
      · exact hd h2
  have hs : splitOnChar '&' (afterFirst '?' url.data)
      = [("api".data ++ '=' :: "1".data), ("origin".data ++ '=' :: origin),
          ("destination".data ++ '=' :: dest)] := by
    rw [hq, splitOnChar_append '&' _ _ (by decide), splitOnChar_append '&' _ _ ho2,
      splitOnChar_of_not_mem '&' _ hd2]
  have k1 : keyOf ("api".data ++ '=' :: "1".data) = "api".data :=
    keyOf_append _ _ (by decide)
  have k2 : keyOf ("origin".data ++ '=' :: origin) = "origin".data :=
    keyOf_append _ _ (by decide)
  have k3 : keyOf ("destination".data ++ '=' :: dest) = "destination".data :=
    keyOf_append _ _ (by decide)
  have v2 : valueOf ("origin".data ++ '=' :: origin) = origin :=
    valueOf_append _ _ (by decide)
  have v3 : valueOf ("destination".data ++ '=' :: dest) = dest :=
    valueOf_append _ _ (by decide)
  have n1 : ¬ ("api".data = "destination".data) := by decide
  have n2 : ¬ ("origin".data = "destination".data) := by decide
  have n3 : ¬ ("api".data = "origin".data) := by decide
  constructor
  · simp only [queryParam, hs, List.find?_cons, k1, k2, k3, n1, n2, decide_False,
      decide_True, Option.map_some', v3]
  · simp only [queryParam, hs, List.find?_cons, k1, k2, n3, decide_False,
      decide_True, Option.map_some', v2]

theorem dest_plain (lat lng : String) (hlat : '&' ∉ lat.data) (hlng : '&' ∉ lng.data) :
    '&' ∉ (lat ++ "," ++ lng).data := by
  simp only [String.data_append, List.mem_append, not_or]
  exact ⟨⟨hlat, by decide⟩, hlng⟩

theorem origin_plain (a b : String) (ha : '&' ∉ a.data) (hb : '&' ∉ b.data) :
    '&' ∉ (a ++ "," ++ b).data :=
  dest_plain a b ha hb

/-- Claim C10, as stated, fails.  While the position request has called neither
callback no URL is opened at all; and a latitude text with an ampersand in it
ends the `destination` parameter early: for the texts "1&destination=9" and
"2" that parameter is "1". -/
theorem directions_unanswered_opens_nothing :
    openGoogleMapsDirections (fun x : String => x) Geolocation.unanswered
      "27.3389" "88.6065" = [] ∧
    (openGoogleMapsDirections (fun x : String => x) Geolocation.failed
      "1&destination=9" "2").map (queryParam "destination") = [some "1"] := by
  decide

/-- Claim C10, amended.  Directions fallback: for every destination whose two
coordinate texts hold no ampersand, once geolocation is found missing or the
position request has called one of its callbacks, `openGoogleMapsDirections`
has opened exactly one URL; its `destination` parameter is the latitude text, a
comma and the longitude text; its `origin` parameter is the literal
`Current+Location` when geolocation is missing or the request is denied or
fails, and the two obtained coordinates joined by a comma (their texts holding
no ampersand) when a position is obtained.  While neither callback has been
called, no URL is opened. -/
theorem directions_fallback {ν : Type} (numberToString : ν → String)
    (geo : Geolocation ν) (lat lng : String)
    (hans : geo ≠ Geolocation.unanswered)
    (hlat : '&' ∉ lat.data) (hlng : '&' ∉ lng.data)
    (ho : OriginPlain numberToString geo) :
    (∃ url, openGoogleMapsDirections numberToString geo lat lng = [url] ∧
      queryParam "destination" url = some (lat ++ "," ++ lng) ∧
      (geo = Geolocation.unavailable ∨ geo = Geolocation.failed →
        queryParam "origin" url = some "Current+Location") ∧
      (∀ a b, geo = Geolocation.position a b →
        queryParam "origin" url = some (numberToString a ++ "," ++ numberToString b))) ∧
    openGoogleMapsDirections numberToString Geolocation.unanswered lat lng = [] := by
  have hd := dest_plain lat lng hlat hlng
  refine ⟨?_, rfl⟩
  cases geo with
  | unavailable =>
    refine ⟨_, rfl, ?_⟩
    obtain ⟨q1, q2⟩ := queryParams_of_url
      ("https://www.google.com/maps/dir/?api=1&origin=Current+Location&destination="
        ++ lat ++ "," ++ lng)
      "Current+Location".data (lat ++ "," ++ lng).data rfl (by decide) hd
    exact ⟨q1, fun _ => q2, fun a b h => by cases h⟩
  | failed =>
    refine ⟨_, rfl, ?_⟩
    obtain ⟨q1, q2⟩ := queryParams_of_url
      ("https://www.google.com/maps/dir/?api=1&origin=Current+Location&destination="
        ++ lat ++ "," ++ lng)
      "Current+Location".data (lat ++ "," ++ lng).data rfl (by decide) hd
    exact ⟨q1, fun _ => q2, fun a b h => by cases h⟩
  | position a b =>
    refine ⟨_, rfl, ?_⟩
    obtain ⟨q1, q2⟩ := queryParams_of_url
      ("https://www.google.com/maps/dir/?api=1&origin="
        ++ (numberToString a ++ "," ++ numberToString b)
        ++ "&destination=" ++ lat ++ "," ++ lng)
      (numberToString a ++ "," ++ numberToString b).data (lat ++ "," ++ lng).data
      (by
        simp only [String.data_append, List.append_assoc, List.cons_append,
          List.nil_append, List.singleton_append])
      (origin_plain _ _ ho.1 ho.2) hd
    refine ⟨q1, ?_, ?_⟩
    · intro h
      rcases h with h | h <;> cases h
    · intro a2 b2 h
      cases h
      exact q2
  | unanswered => exact absurd rfl hans

/-- The link opened when the position request is denied, for Rumtek Monastery. -/
theorem directions_denied_example :
    openGoogleMapsDirections (fun x : String => x) Geolocation.failed "27.3389" "88.6065"
      = ["https://www.google.com/maps/dir/?api=1&origin=Current+Location&destination=27.3389,88.6065"] := by
  decide

/-- Witness of C10 (amended): a position was obtained, the destination is Rumtek
Monastery. -/
theorem directions_fallback_witness :
    ((Geolocation.position "27.2" "88.5" : Geolocation String) ≠ Geolocation.unanswered ∧
      '&' ∉ "27.3389".data ∧ '&' ∉ "88.6065".data ∧
      OriginPlain (fun x : String => x) (Geolocation.position "27.2" "88.5")) ∧
    (∃ url, openGoogleMapsDirections (fun x : String => x)
        (Geolocation.position "27.2" "88.5") "27.3389" "88.6065" = [url] ∧
      queryParam "destination" url = some ("27.3389" ++ "," ++ "88.6065") ∧
      ((Geolocation.position "27.2" "88.5" : Geolocation String) = Geolocation.unavailable ∨
          (Geolocation.position "27.2" "88.5" : Geolocation String) = Geolocation.failed →
        queryParam "origin" url = some "Current+Location") ∧
      (∀ a b, (Geolocation.position "27.2" "88.5" : Geolocation String)
          = Geolocation.position a b →
        queryParam "origin" url = some (a ++ "," ++ b))) ∧
    openGoogleMapsDirections (fun x : String => x) Geolocation.unanswered
      "27.3389" "88.6065" = [] :=
  ⟨⟨by decide, by decide, by decide, by decide, by decide⟩,
    directions_fallback (fun x : String => x) (Geolocation.position "27.2" "88.5")
      "27.3389" "88.6065" (by decide) (by decide) (by decide) ⟨by decide, by decide⟩⟩

/-! ## Carousel: the index stays in range -/

theorem runSnap_index_range (e : Env) (c : Snap) (s : State) (hN : 1 ≤ e.length) :
    0 ≤ (runSnap e c s).index ∧ (runSnap e c s).index < e.length := by
  cases c with
  | toFirst =>
    show (0 : Int) ≤ 0 ∧ (0 : Int) < e.length
    omega
  | toLast =>
    show (0 : Int) ≤ (e.length : Int) - 1 ∧ (e.length : Int) - 1 < e.length
    omega

theorem foldl_runSnap_index_range (e : Env) (hN : 1 ≤ e.length) (l : List Snap) :
    ∀ acc : State, l ≠ [] →
      0 ≤ (l.foldl (fun a c => runSnap e c a) acc).index ∧
      (l.foldl (fun a c => runSnap e c a) acc).index < e.length := by
  induction l with
  | nil => intro acc h; exact absurd rfl h
  | cons c rest ih =>
    intro acc _
    rw [List.foldl_cons]
    by_cases hr : rest = []
    · subst hr
      exact runSnap_index_range e c acc hN
    · exact ih _ hr

theorem moveNext_index_inv (e : Env) (s : State)
    (ih : s.pending = [] → 0 ≤ s.index ∧ s.index < e.length) :
    (moveNext e s).pending = [] →
      0 ≤ (moveNext e s).index ∧ (moveNext e s).index < e.length := by
  unfold moveNext
  by_cases hge : s.index + 1 ≥ (e.length : Int)
  · simp only [hge, if_true]
    intro hp
    simp at hp
  · simp only [hge, if_false]
    intro hp
    have := ih hp
    constructor
    · show 0 ≤ s.index + 1
      omega
    · show s.index + 1 < e.length
      omega

theorem movePrev_index_inv (e : Env) (s : State)
    (ih : s.pending = [] → 0 ≤ s.index ∧ s.index < e.length) :
    (movePrev e s).pending = [] →
      0 ≤ (movePrev e s).index ∧ (movePrev e s).index < e.length := by
  unfold movePrev
  by_cases hlt : s.index - 1 < 0
  · simp only [hlt, if_true]
    intro hp
    simp at hp
  · simp only [hlt, if_false]
    intro hp
    have := ih hp
    constructor
    · show 0 ≤ s.index - 1
      omega
    · show s.index - 1 < e.length
      omega

theorem fireSnap_index_inv (e : Env) (s : State) (hN : 1 ≤ e.length)
    (ih : s.pending = [] → 0 ≤ s.index ∧ s.index < e.length) :
    (fireSnap e s).pending = [] →
      0 ≤ (fireSnap e s).index ∧ (fireSnap e s).index < e.length := by
  unfold fireSnap
  cases hp : s.pending with
  | nil =>
    intro _
    exact ih hp
  | cons c rest =>
    intro _
    exact runSnap_index_range e c _ hN

theorem reachable_index_inv (e : Env) (s : State) (hN : 1 ≤ e.length)
    (h : Reachable e s) :
    s.pending = [] → 0 ≤ s.index ∧ s.index < e.length := by
  induction h with
  | init =>
    intro _
    show (0 : Int) ≤ 0 ∧ (0 : Int) < e.length
    omega
  | next s _ ih => exact moveNext_index_inv e s ih
  | prev s _ ih => exact movePrev_index_inv e s ih
  | fire s _ ih => exact fireSnap_index_inv e s hN ih

/-- Claim C12.  Index range invariant: with `N ≥ 1` original cards, in every state
reached from initialization by calls of `moveNext` and `movePrev` and by snap
callbacks running, in any interleaving, the index lies in `[0, N)` whenever no
snap callback is scheduled; and whenever the index is outside `[0, N)` a snap
callback is scheduled and the scheduled callbacks bring it back into `[0, N)`. -/
theorem index_in_range (e : Env) (s : State) (hN : 1 ≤ e.length)
    (h : Reachable e s) :
    (s.pending = [] → 0 ≤ s.index ∧ s.index < e.length) ∧
    (¬ (0 ≤ s.index ∧ s.index < e.length) →
      s.pending ≠ [] ∧ 0 ≤ (settle e s).index ∧ (settle e s).index < e.length) := by
  have hinv := reachable_index_inv e s hN h
  refine ⟨hinv, ?_⟩
  intro hout
  have hp : s.pending ≠ [] := fun hp => hout (hinv hp)
  exact ⟨hp, foldl_runSnap_index_range e hN s.pending _ hp⟩

/-- Witness of C12: six cards; `movePrev` at the start leaves index -1 with the
wrap callback scheduled, which brings the index to 5. -/
theorem index_in_range_witness :
    (1 ≤ (pageEnv 6 300).length ∧
      Reachable (pageEnv 6 300) (movePrev (pageEnv 6 300) (initState (pageEnv 6 300)))) ∧
    (movePrev (pageEnv 6 300) (initState (pageEnv 6 300))).index = -1 ∧
    (movePrev (pageEnv 6 300) (initState (pageEnv 6 300))).pending ≠ [] ∧
    0 ≤ (settle (pageEnv 6 300)
      (movePrev (pageEnv 6 300) (initState (pageEnv 6 300)))).index ∧
    (settle (pageEnv 6 300)
      (movePrev (pageEnv 6 300) (initState (pageEnv 6 300)))).index < (pageEnv 6 300).length :=
  ⟨⟨by decide, Reachable.prev _ Reachable.init⟩, by decide,
    (index_in_range (pageEnv 6 300) (movePrev (pageEnv 6 300) (initState (pageEnv 6 300)))
      (by decide) (Reachable.prev _ Reachable.init)).2 (by decide)⟩

/-! ## Carousel: position and index -/

theorem moveNext_transformArg (e : Env) (s : State) :
    (moveNext e s).transformArg
      = (e.cardWidth : Int) * ((e.visibleCards : Int) + (moveNext e s).index) := by
  unfold moveNext
  by_cases hge : s.index + 1 ≥ (e.length : Int)
  · simp only [hge, if_true]
    exact mul_comm _ _
  · simp only [hge, if_false]
    exact mul_comm _ _

theorem movePrev_transformArg (e : Env) (s : State) :
    (movePrev e s).transformArg
      = (e.cardWidth : Int) * ((e.visibleCards : Int) + (movePrev e s).index) := by
  unfold movePrev
  by_cases hlt : s.index - 1 < 0
  · simp only [hlt, if_true]
    exact mul_comm _ _
  · simp only [hlt, if_false]
    exact mul_comm _ _

theorem runSnap_transformArg (e : Env) (c : Snap) (s : State) :
    (runSnap e c s).transformArg
      = (e.cardWidth : Int) * ((e.visibleCards : Int) + (runSnap e c s).index) := by
  cases c with
  | toFirst =>
    show (e.cardWidth : Int) * e.visibleCards = (e.cardWidth : Int) * ((e.visibleCards : Int) + 0)
    rw [add_zero]
  | toLast =>
    show (e.cardWidth : Int) * ((e.visibleCards : Int) + e.length - 1)
      = (e.cardWidth : Int) * ((e.visibleCards : Int) + ((e.length : Int) - 1))
    rw [add_sub_assoc]

theorem initState_transformArg (e : Env) :
    (initState e).transformArg
      = (e.cardWidth : Int) * ((e.visibleCards : Int) + (initState e).index) := by
  show (e.cardWidth : Int) * e.visibleCards = (e.cardWidth : Int) * ((e.visibleCards : Int) + 0)
  rw [add_zero]

theorem assign_state (old : Shown) (s : State) : (old.assign s).state = s := rfl

theorem assign_translateX (old : Shown) (s : State) (h : 0 ≤ s.transformArg) :
    (old.assign s).translateX = -s.transformArg := by
  simp [Shown.assign, h]

theorem assign_in_force (old : Shown) (s : State) :
    0 ≤ (old.assign s).state.transformArg →
      (old.assign s).translateX = -(old.assign s).state.transformArg :=
  fun h => assign_translateX old s h

theorem shownFire_cons (e : Env) (t : Shown) (c : Snap) (rest : List Snap)
    (h : t.state.pending = c :: rest) :
    shownFire e t = t.assign (runSnap e c { t.state with pending := rest }) := by
  simp only [shownFire, h]

theorem shownFire_nil (e : Env) (t : Shown) (h : t.state.pending = []) :
    shownFire e t = t := by
  simp only [shownFire, h]

theorem shownReachable_arg (e : Env) (t : Shown) (h : ShownReachable e t) :
    t.state.transformArg
      = (e.cardWidth : Int) * ((e.visibleCards : Int) + t.state.index) := by
  induction h with
  | init => exact initState_transformArg e
  | next t _ _ => exact moveNext_transformArg e t.state
  | prev t _ _ => exact movePrev_transformArg e t.state
  | fire t _ ih =>
    cases hp : t.state.pending with
    | nil => rw [shownFire_nil e t hp]; exact ih
    | cons c rest =>
      rw [shownFire_cons e t c rest hp]
      exact runSnap_transformArg e c _

theorem shownReachable_in_force (e : Env) (t : Shown) (h : ShownReachable e t) :
    0 ≤ t.state.transformArg → t.translateX = -t.state.transformArg := by
  induction h with
  | init => exact assign_in_force _ _
  | next t _ _ => exact assign_in_force _ _
  | prev t _ _ => exact assign_in_force _ _
  | fire t _ ih =>
    cases hp : t.state.pending with
    | nil => rw [shownFire_nil e t hp]; exact ih
    | cons c rest =>
      rw [shownFire_cons e t c rest hp]
      exact assign_in_force _ _

theorem shownInit_translateX (e : Env) :
    (shownInit e).translateX = -((e.cardWidth : Int) * e.visibleCards) := by
  have h0 : (0 : Int) ≤ (e.cardWidth : Int) * e.visibleCards :=
    mul_nonneg (Int.ofNat_nonneg _) (Int.ofNat_nonneg _)
  exact assign_translateX _ (initState e) h0

theorem shownFire_toFirst (e : Env) (t : Shown) (rest : List Snap)
    (h : t.state.pending = Snap.toFirst :: rest) :
    (shownFire e t).translateX = -((e.cardWidth : Int) * e.visibleCards) ∧
    (shownFire e t).state.index = 0 ∧
    (shownFire e t).state.pending = rest := by
  rw [shownFire_cons e t _ rest h]
  have h0 : (0 : Int) ≤ (e.cardWidth : Int) * e.visibleCards :=
    mul_nonneg (Int.ofNat_nonneg _) (Int.ofNat_nonneg _)
  exact ⟨assign_translateX _ _ h0, rfl, rfl⟩

theorem shownFire_toLast (e : Env) (t : Shown) (rest : List Snap) (hN : 1 ≤ e.length)
    (h : t.state.pending = Snap.toLast :: rest) :
    (shownFire e t).translateX
      = -((e.cardWidth : Int) * ((e.visibleCards : Int) + e.length - 1)) ∧
    (shownFire e t).state.index = (e.length : Int) - 1 ∧
    (shownFire e t).state.pending = rest := by
  rw [shownFire_cons e t _ rest h]
  have h0 : (0 : Int) ≤ (e.cardWidth : Int) * ((e.visibleCards : Int) + e.length - 1) :=
    mul_nonneg (Int.ofNat_nonneg _) (by omega)
  exact ⟨assign_translateX _ _ h0, rfl, rfl⟩

/-- Claim C13, as stated, fails: with three visible cards, four calls of `movePrev`
before any snap callback runs leave `index = -4`; the fourth call writes the
text "translateX(--320px)", which is no transform, so the translation of the
third call (0 px) stays in force, while `-(cardWidth * (visibleCards + index))`
is 320. -/
theorem four_movePrev_break_position :
    ShownReachable (pageEnv 6 300)
      (shownPrev (pageEnv 6 300) (shownPrev (pageEnv 6 300)
        (shownPrev (pageEnv 6 300) (shownPrev (pageEnv 6 300)
          (shownInit (pageEnv 6 300)))))) ∧
    (shownPrev (pageEnv 6 300) (shownPrev (pageEnv 6 300)
        (shownPrev (pageEnv 6 300) (shownPrev (pageEnv 6 300)
          (shownInit (pageEnv 6 300)))))).state.index = -4 ∧
    (shownPrev (pageEnv 6 300) (shownPrev (pageEnv 6 300)
        (shownPrev (pageEnv 6 300) (shownPrev (pageEnv 6 300)
          (shownInit (pageEnv 6 300)))))).translateX = 0 ∧
    -(((pageEnv 6 300).cardWidth : Int) * (((pageEnv 6 300).visibleCards : Int) + -4)) = 320 :=
  ⟨ShownReachable.prev _ (ShownReachable.prev _ (ShownReachable.prev _
      (ShownReachable.prev _ ShownReachable.init))),
    by decide, by decide, by decide⟩

/-- Claim C13, amended.  In every state reached from initialization by calls of
`moveNext` and `movePrev` and by snap callbacks, in any interleaving, the number
written into the transform is `cardWidth * (visibleCards + index)`, and the
horizontal translation of the track is `-(cardWidth * (visibleCards + index))`
whenever `visibleCards + index ≥ 0`.  It is `-(cardWidth * visibleCards)` at
initialization and after a forward snap, and, with `N ≥ 1` cards,
`-(cardWidth * (visibleCards + N - 1))` after a backward snap. -/
theorem position_matches_index (e : Env) (t : Shown) (h : ShownReachable e t) :
    t.state.transformArg
      = (e.cardWidth : Int) * ((e.visibleCards : Int) + t.state.index) ∧
    (0 ≤ (e.visibleCards : Int) + t.state.index →
      t.translateX = -((e.cardWidth : Int) * ((e.visibleCards : Int) + t.state.index))) ∧
    (shownInit e).translateX = -((e.cardWidth : Int) * e.visibleCards) ∧
    (∀ rest, t.state.pending = Snap.toFirst :: rest →
      (shownFire e t).translateX = -((e.cardWidth : Int) * e.visibleCards)) ∧
    (1 ≤ e.length → ∀ rest, t.state.pending = Snap.toLast :: rest →
      (shownFire e t).translateX
        = -((e.cardWidth : Int) * ((e.visibleCards : Int) + e.length - 1))) := by
  have harg := shownReachable_arg e t h
  refine ⟨harg, ?_, shownInit_translateX e, ?_, ?_⟩
  · intro hk
    have h0 : 0 ≤ t.state.transformArg := by
      rw [harg]
      exact mul_nonneg (Int.ofNat_nonneg _) hk
    rw [shownReachable_in_force e t h h0, harg]
  · intro rest hp
    exact (shownFire_toFirst e t rest hp).1
  · intro hN rest hp
    exact (shownFire_toLast e t rest hN hp).1

/-- Witness of C13 (amended): six cards, `movePrev` at the start; the track shows
position 2 and the wrap callback takes it to position 8. -/
theorem position_matches_index_witness :
    ShownReachable (pageEnv 6 300) (shownPrev (pageEnv 6 300) (shownInit (pageEnv 6 300))) ∧
    (shownPrev (pageEnv 6 300) (shownInit (pageEnv 6 300))).translateX = -640 ∧
    (shownFire (pageEnv 6 300)
      (shownPrev (pageEnv 6 300) (shownInit (pageEnv 6 300)))).translateX = -2560 :=
  ⟨ShownReachable.prev _ ShownReachable.init,
    ((position_matches_index (pageEnv 6 300)
      (shownPrev (pageEnv 6 300) (shownInit (pageEnv 6 300)))
      (ShownReachable.prev _ ShownReachable.init)).2.1 (by decide)).trans (by decide),
    ((position_matches_index (pageEnv 6 300)
      (shownPrev (pageEnv 6 300) (shownInit (pageEnv 6 300)))
      (ShownReachable.prev _ ShownReachable.init)).2.2.2.2 (by decide) [] (by decide)).trans
      (by decide)⟩

/-! ## Modal system: the scroll lock follows `currentModal` -/

theorem runCallback_lock (cb : Callback) (s : ModalState)
    (h : s.overflow = Overflow.hidden ↔ s.currentModal ≠ none) :
    (runCallback cb s).overflow = Overflow.hidden ↔ (runCallback cb s).currentModal ≠ none := by
  cases cb with
  | activate x => exact h
  | teardown x =>
    show Overflow.empty = Overflow.hidden ↔ (none : Option Modal) ≠ none
    constructor
    · intro hc; cases hc
    · intro hc; exact absurd rfl hc

theorem runAll_lock (ts : List Timer) :
    ∀ s : ModalState, (s.overflow = Overflow.hidden ↔ s.currentModal ≠ none) →
      ((runAll ts s).overflow = Overflow.hidden ↔ (runAll ts s).currentModal ≠ none) := by
  induction ts with
  | nil => intro s h; exact h
  | cons t ts ih =>
    intro s h
    rw [runAll_cons]
    exact ih _ (runCallback_lock t.callback s h)

theorem elapse_lock (d : Nat) (s : ModalState)
    (h : s.overflow = Overflow.hidden ↔ s.currentModal ≠ none) :
    (elapse d s).overflow = Overflow.hidden ↔ (elapse d s).currentModal ≠ none :=
  runAll_lock _ _ h

theorem showModal_lock (m : Modal) (s : ModalState) :
    (showModal m s).overflow = Overflow.hidden ↔ (showModal m s).currentModal ≠ none := by
  show Overflow.hidden = Overflow.hidden ↔ (some m : Option Modal) ≠ none
  constructor
  · intro _ hc; cases hc
  · intro _; rfl

theorem hideModal_lock (m : Modal) (s : ModalState)
    (h : s.overflow = Overflow.hidden ↔ s.currentModal ≠ none) :
    (hideModal m s).overflow = Overflow.hidden ↔ (hideModal m s).currentModal ≠ none := h

theorem apply_lock (a : Action) (s : ModalState)
    (h : s.overflow = Overflow.hidden ↔ s.currentModal ≠ none) :
    (a.apply s).overflow = Overflow.hidden ↔ (a.apply s).currentModal ≠ none := by
  cases a with
  | callShow m => exact showModal_lock m s
  | callHide m => exact hideModal_lock m s h
  | pause d => exact elapse_lock d s h

theorem runActions_lock (acts : List Action) :
    ∀ s : ModalState, (s.overflow = Overflow.hidden ↔ s.currentModal ≠ none) →
      ((runActions acts s).overflow = Overflow.hidden ↔
        (runActions acts s).currentModal ≠ none) := by
  induction acts with
  | nil => intro s h; exact h
  | cons a rest ih =>
    intro s h
    exact ih _ (apply_lock a s h)

/-- Claim C14.  The scroll lock follows `currentModal`: from any state with
`currentModal = null` and the scroll released, after any sequence of `showModal`
calls, `hideModal` calls (on any node) and pauses in which the due callbacks run,
the body overflow is "hidden" if and only if `currentModal` is not `null`. -/
theorem scroll_lock_tracks_current (s0 : ModalState) (acts : List Action)
    (hcur : s0.currentModal = none) (hov : s0.overflow = Overflow.empty) :
    (runActions acts s0).overflow = Overflow.hidden ↔
      (runActions acts s0).currentModal ≠ none := by
  apply runActions_lock
  rw [hcur, hov]
  constructor
  · intro hc; cases hc
  · intro hc; exact absurd rfl hc

/-- Witness of C14: open node 1, close it twice, open node 2 before the second
teardown runs, and let that teardown run: the scroll is released and
`currentModal` is `null` although node 2 is still in the document. -/
theorem scroll_lock_tracks_current_witness :
    (ModalState.initial.currentModal = none ∧
      ModalState.initial.overflow = Overflow.empty) ∧
    (runActions [Action.callShow 1, Action.pause 50, Action.callHide 1, Action.pause 200,
      Action.callHide 1, Action.pause 150, Action.callShow 2, Action.pause 150]
      ModalState.initial).attached = [2] ∧
    (runActions [Action.callShow 1, Action.pause 50, Action.callHide 1, Action.pause 200,
      Action.callHide 1, Action.pause 150, Action.callShow 2, Action.pause 150]
      ModalState.initial).overflow = Overflow.empty ∧
    ((runActions [Action.callShow 1, Action.pause 50, Action.callHide 1, Action.pause 200,
      Action.callHide 1, Action.pause 150, Action.callShow 2, Action.pause 150]
      ModalState.initial).overflow = Overflow.hidden ↔
    (runActions [Action.callShow 1, Action.pause 50, Action.callHide 1, Action.pause 200,
      Action.callHide 1, Action.pause 150, Action.callShow 2, Action.pause 150]
      ModalState.initial).currentModal ≠ none) :=
  ⟨⟨rfl, rfl⟩, by decide, by decide,
    scroll_lock_tracks_current ModalState.initial _ rfl rfl⟩

/-! ## Carousel: `moveNext` and `movePrev` undo each other -/

theorem shownNextSettled_spec (e : Env) (t : Shown) (i : Nat) (hi : i < e.length)
    (hidx : t.state.index = i) (hp : t.state.pending = []) :
    (shownNextSettled e t).state.pending = [] ∧
    (shownNextSettled e t).state.index
      = ((if i + 1 = e.length then 0 else i + 1 : Nat) : Int) ∧
    (shownNextSettled e t).translateX
      = -((e.cardWidth : Int) *
          ((e.visibleCards : Int) + ((if i + 1 = e.length then 0 else i + 1 : Nat) : Int))) := by
  by_cases hw : i + 1 = e.length
  · have hge : t.state.index + 1 ≥ (e.length : Int) := by omega
    have hpend : (shownNext e t).state.pending = [Snap.toFirst] := by
      simp [shownNext, Shown.assign, moveNext, hge, hp]
    have hs : shownNextSettled e t = shownFire e (shownNext e t) := by
      simp only [shownNextSettled, shownSettle, hpend, List.length_singleton,
        Function.iterate_one]
    obtain ⟨f1, f2, f3⟩ := shownFire_toFirst e (shownNext e t) [] hpend
    rw [hs, if_pos hw]
    refine ⟨f3, f2, ?_⟩
    rw [f1]
    simp
  · have hlt : ¬ (t.state.index + 1 ≥ (e.length : Int)) := by omega
    have hst : (shownNext e t).state
        = { t.state with
            index := t.state.index + 1
            transition := Transition.easeInOut
            transformArg := ((e.visibleCards : Int) + (t.state.index + 1)) * e.cardWidth } := by
      simp [shownNext, Shown.assign, moveNext, hlt]
    have hpend : (shownNext e t).state.pending = [] := by rw [hst]; exact hp
    have hs : shownNextSettled e t = shownNext e t := by
      simp only [shownNextSettled, shownSettle, hpend, List.length_nil,
        Function.iterate_zero, id_eq]
    have h0 : (0 : Int) ≤ ((e.visibleCards : Int) + (t.state.index + 1)) * e.cardWidth :=
      mul_nonneg (by omega) (Int.ofNat_nonneg _)
    rw [hs, if_neg hw]
    refine ⟨hpend, by rw [hst, hidx]; push_cast; rfl, ?_⟩
    have htx : (shownNext e t).translateX = -(shownNext e t).state.transformArg :=
      assign_translateX t _ (by rw [← assign_state t (moveNext e t.state)]
                                show 0 ≤ (shownNext e t).state.transformArg
                                rw [hst]; exact h0)
    rw [htx, hst, hidx]
    push_cast
    ring

theorem shownPrevSettled_spec (e : Env) (t : Shown) (i : Nat) (hi : i < e.length)
    (hidx : t.state.index = i) (hp : t.state.pending = []) :
    (shownPrevSettled e t).state.pending = [] ∧
    (shownPrevSettled e t).state.index
      = ((if i = 0 then e.length - 1 else i - 1 : Nat) : Int) ∧
    (shownPrevSettled e t).translateX
      = -((e.cardWidth : Int) *
          ((e.visibleCards : Int) + ((if i = 0 then e.length - 1 else i - 1 : Nat) : Int))) := by
  by_cases hw : i = 0
  · have hlt : t.state.index - 1 < 0 := by omega
    have hpend : (shownPrev e t).state.pending = [Snap.toLast] := by
      simp [shownPrev, Shown.assign, movePrev, hlt, hp]
    have hs : shownPrevSettled e t = shownFire e (shownPrev e t) := by
      simp only [shownPrevSettled, shownSettle, hpend, List.length_singleton,
        Function.iterate_one]
    obtain ⟨f1, f2, f3⟩ := shownFire_toLast e (shownPrev e t) [] (by omega) hpend
    have hc : ((e.length - 1 : Nat) : Int) = (e.length : Int) - 1 := by omega
    rw [hs, if_pos hw, hc]
    refine ⟨f3, f2, ?_⟩
    rw [f1, add_sub_assoc]
  · have hge : ¬ (t.state.index - 1 < 0) := by omega
    have hst : (shownPrev e t).state
        = { t.state with
            index := t.state.index - 1
            transition := Transition.easeInOut
            transformArg := ((e.visibleCards : Int) + (t.state.index - 1)) * e.cardWidth } := by
      simp [shownPrev, Shown.assign, movePrev, hge]
    have hpend : (shownPrev e t).state.pending = [] := by rw [hst]; exact hp
    have hs : shownPrevSettled e t = shownPrev e t := by
      simp only [shownPrevSettled, shownSettle, hpend, List.length_nil,
        Function.iterate_zero, id_eq]
    have h0 : (0 : Int) ≤ ((e.visibleCards : Int) + (t.state.index - 1)) * e.cardWidth :=
      mul_nonneg (by omega) (Int.ofNat_nonneg _)
    have hc : ((i - 1 : Nat) : Int) = (i : Int) - 1 := by omega
    rw [hs, if_neg hw, hc]
    refine ⟨hpend, by rw [hst, hidx], ?_⟩
    have htx : (shownPrev e t).translateX = -(shownPrev e t).state.transformArg :=
      assign_translateX t _ (by rw [← assign_state t (movePrev e t.state)]
                                show 0 ≤ (shownPrev e t).state.transformArg
                                rw [hst]; exact h0)
    rw [htx, hst, hidx]
    ring

/-- Claim C15.  On a settled state with index `i` in `[0, N)`, translation
`-(cardWidth * (visibleCards + i))` and no snap callback scheduled, `moveNext`
then `movePrev`, and `movePrev` then `moveNext`, each followed by the callbacks it
schedules, give back index `i` and the same translation with nothing scheduled;
this covers the wraps at `i = N - 1` and `i = 0`. -/
theorem moveNext_movePrev_inverse (e : Env) (t : Shown) (i : Nat) (hi : i < e.length)
    (hidx : t.state.index = i) (hp : t.state.pending = [])
    (htr : t.translateX = -((e.cardWidth : Int) * ((e.visibleCards : Int) + i))) :
    (shownPrevSettled e (shownNextSettled e t)).state.index = i ∧
    (shownPrevSettled e (shownNextSettled e t)).translateX = t.translateX ∧
    (shownPrevSettled e (shownNextSettled e t)).state.pending = [] ∧
    (shownNextSettled e (shownPrevSettled e t)).state.index = i ∧
    (shownNextSettled e (shownPrevSettled e t)).translateX = t.translateX ∧
    (shownNextSettled e (shownPrevSettled e t)).state.pending = [] := by
  obtain ⟨n1, n2, _⟩ := shownNextSettled_spec e t i hi hidx hp
  obtain ⟨p1, p2, _⟩ := shownPrevSettled_spec e t i hi hidx hp
  have hj : (if i + 1 = e.length then 0 else i + 1 : Nat) < e.length := by
    split <;> omega
  have hk : (if i = 0 then e.length - 1 else i - 1 : Nat) < e.length := by
    split <;> omega
  obtain ⟨a1, a2, a3⟩ := shownPrevSettled_spec e (shownNextSettled e t) _ hj n2 n1
  obtain ⟨b1, b2, b3⟩ := shownNextSettled_spec e (shownPrevSettled e t) _ hk p2 p1
  have ea : (if (if i + 1 = e.length then 0 else i + 1 : Nat) = 0 then e.length - 1
      else (if i + 1 = e.length then 0 else i + 1 : Nat) - 1 : Nat) = i := by
    by_cases h1 : i + 1 = e.length
    · rw [if_pos h1, if_pos rfl]; omega
    · rw [if_neg h1, if_neg (by omega)]; omega
  have eb : (if (if i = 0 then e.length - 1 else i - 1 : Nat) + 1 = e.length then 0
      else (if i = 0 then e.length - 1 else i - 1 : Nat) + 1 : Nat) = i := by
    by_cases h1 : i = 0
    · rw [if_pos h1, if_pos (by omega)]; omega
    · rw [if_neg h1, if_neg (by omega)]; omega
  rw [ea] at a2 a3
  rw [eb] at b2 b3
  exact ⟨a2, a3.trans htr.symm, a1, b2, b3.trans htr.symm, b1⟩

/-- Witness of C15: six cards, at the last card (`i = 5`), where `moveNext` wraps. -/
theorem moveNext_movePrev_inverse_witness :
    (shownPrevSettled (pageEnv 6 300) (shownNextSettled (pageEnv 6 300)
      ((shownNextSettled (pageEnv 6 300))^[5] (shownInit (pageEnv 6 300))))).state.index = 5 ∧
    (shownPrevSettled (pageEnv 6 300) (shownNextSettled (pageEnv 6 300)
      ((shownNextSettled (pageEnv 6 300))^[5] (shownInit (pageEnv 6 300))))).translateX
      = -2560 :=
  ⟨(moveNext_movePrev_inverse (pageEnv 6 300)
      ((shownNextSettled (pageEnv 6 300))^[5] (shownInit (pageEnv 6 300))) 5
      (by decide) (by decide) (by decide) (by decide)).1,
    ((moveNext_movePrev_inverse (pageEnv 6 300)
      ((shownNextSettled (pageEnv 6 300))^[5] (shownInit (pageEnv 6 300))) 5
      (by decide) (by decide) (by decide) (by decide)).2.1).trans (by decide)⟩

/-! ## Dark mode -/

theorem storedTrue_toggleClick (p : DarkPage) :
    storedTrue (toggleClick p) = !p.darkClass := by
  cases h : p.darkClass <;> simp [storedTrue, toggleClick, boolText, h]

theorem darkClass_toggleClick (p : DarkPage) :
    (toggleClick p).darkClass = !p.darkClass := rfl

theorem iconTimeout_keeps (p : DarkPage) :
    (iconTimeout p).darkClass = p.darkClass ∧ (iconTimeout p).storage = p.storage := by
  unfold iconTimeout
  cases p.pending with
  | nil => exact ⟨rfl, rfl⟩
  | cons b rest => exact ⟨rfl, rfl⟩

theorem storedTrue_iconTimeout (p : DarkPage) :
    storedTrue (iconTimeout p) = storedTrue p := by
  unfold storedTrue
  rw [(iconTimeout_keeps p).2]

theorem initDarkMode_storage (p : DarkPage) : (initDarkMode p).storage = p.storage := by
  unfold initDarkMode
  by_cases hs : p.storage = some "true"
  · simp [hs]
  · simp [hs]

theorem initDarkMode_darkClass (p : DarkPage) (h : p.darkClass = false) :
    (initDarkMode p).darkClass = storedTrue p := by
  unfold initDarkMode storedTrue
  by_cases hs : p.storage = some "true"
  · simp [hs]
  · simp [hs, h]

theorem initDarkMode_keeps_class (p : DarkPage) (h : (initDarkMode p).darkClass = false) :
    p.darkClass = false ∧ storedTrue p = false := by
  unfold initDarkMode at h
  unfold storedTrue
  by_cases hs : p.storage = some "true"
  · simp [hs] at h
  · simp only [hs, decide_False] at h ⊢
    exact ⟨h, trivial⟩

theorem apply_parity (ev : DarkEvent) (p : DarkPage) (n : Nat)
    (hagree : p.darkClass = storedTrue p) (hpar : p.darkClass = true ↔ n % 2 = 1) :
    (ev.apply p).darkClass = storedTrue (ev.apply p) ∧
    ((ev.apply p).darkClass = true ↔ (n + clicks [ev]) % 2 = 1) := by
  cases ev with
  | click =>
    have hc : clicks [DarkEvent.click] = 1 := by decide
    rw [hc]
    show (toggleClick p).darkClass = storedTrue (toggleClick p) ∧
      ((toggleClick p).darkClass = true ↔ (n + 1) % 2 = 1)
    rw [storedTrue_toggleClick, darkClass_toggleClick]
    refine ⟨rfl, ?_⟩
    cases hd : p.darkClass with
    | true =>
      have := hpar.mp hd
      simp only [Bool.not_true]
      constructor
      · intro hc; cases hc
      · intro hc; omega
    | false =>
      have hne : ¬ (n % 2 = 1) := fun hc => by
        have := hpar.mpr hc
        rw [hd] at this
        cases this
      simp only [Bool.not_false, true_iff]
      omega
  | timeout =>
    have hc : clicks [DarkEvent.timeout] = 0 := by decide
    rw [hc, Nat.add_zero]
    show (iconTimeout p).darkClass = storedTrue (iconTimeout p) ∧
      ((iconTimeout p).darkClass = true ↔ n % 2 = 1)
    rw [storedTrue_iconTimeout, (iconTimeout_keeps p).1]
    exact ⟨hagree, hpar⟩

theorem clicks_cons (ev : DarkEvent) (rest : List DarkEvent) :
    clicks (ev :: rest) = clicks [ev] + clicks rest := by
  unfold clicks
  rw [List.count_cons, List.count_cons, List.count_nil]
  omega

theorem runDark_parity (evs : List DarkEvent) :
    ∀ (p : DarkPage) (n : Nat),
      p.darkClass = storedTrue p → (p.darkClass = true ↔ n % 2 = 1) →
      (runDark evs p).darkClass = storedTrue (runDark evs p) ∧
      ((runDark evs p).darkClass = true ↔ (n + clicks evs) % 2 = 1) := by
  induction evs with
  | nil =>
    intro p n h1 h2
    exact ⟨h1, h2⟩
  | cons ev rest ih =>
    intro p n h1 h2
    obtain ⟨k1, k2⟩ := apply_parity ev p n h1 h2
    have := ih (ev.apply p) (n + clicks [ev]) k1 k2
    rw [clicks_cons, ← Nat.add_assoc]
    exact this

/-- Claim C11.  Dark-mode round trip: on a page that `initDarkMode` left without
the dark-mode class, after any events with `n` clicks on the toggle (icon
callbacks may run in between) the stored value is the text "true" exactly when
`n` is odd, and it is so exactly when the body has the dark-mode class; one
click stores "true"; and `initDarkMode` on a fresh page (no dark-mode class in
the markup) with that stored value adds the class exactly when the stored value
is "true". -/
theorem darkMode_round_trip (f : DarkPage) (evs : List DarkEvent)
    (hstart : (initDarkMode f).darkClass = false) :
    (storedTrue (runDark evs (initDarkMode f)) = true ↔ clicks evs % 2 = 1) ∧
    (runDark evs (initDarkMode f)).darkClass = storedTrue (runDark evs (initDarkMode f)) ∧
    (toggleClick (initDarkMode f)).storage = some "true" ∧
    (∀ g : DarkPage, g.darkClass = false →
      g.storage = (runDark evs (initDarkMode f)).storage →
      (initDarkMode g).darkClass = storedTrue (runDark evs (initDarkMode f))) := by
  obtain ⟨hf, hst⟩ := initDarkMode_keeps_class f hstart
  have hst0 : storedTrue (initDarkMode f) = false := by
    unfold storedTrue
    rw [initDarkMode_storage]
    exact hst
  have hpar0 : (initDarkMode f).darkClass = true ↔ 0 % 2 = 1 := by
    rw [hstart]
    constructor
    · intro hc; cases hc
    · intro hc; omega
  obtain ⟨k1, k2⟩ := runDark_parity evs (initDarkMode f) 0 (by rw [hstart, hst0]) hpar0
  rw [Nat.zero_add] at k2
  refine ⟨?_, k1, ?_, ?_⟩
  · rw [← k1]
    exact k2
  · show some (boolText (!(initDarkMode f).darkClass)) = some "true"
    rw [hstart]
    rfl
  · intro g hg hs
    rw [initDarkMode_darkClass g hg]
    unfold storedTrue
    rw [hs]

/-- Witness of C11: no stored value, three clicks with icon callbacks in between,
then a reload. -/
theorem darkMode_round_trip_witness :
    (initDarkMode (freshPage none)).darkClass = false ∧
    (runDark [DarkEvent.click, DarkEvent.timeout, DarkEvent.click, DarkEvent.click]
      (initDarkMode (freshPage none))).darkClass = true ∧
    (runDark [DarkEvent.click, DarkEvent.timeout, DarkEvent.click, DarkEvent.click]
      (initDarkMode (freshPage none))).storage = some "true" ∧
    (initDarkMode (freshPage (some "true"))).darkClass = true :=
  ⟨by decide,
    ((darkMode_round_trip (freshPage none)
      [DarkEvent.click, DarkEvent.timeout, DarkEvent.click, DarkEvent.click]
      (by decide)).2.1).trans (by decide),
    by decide, by decide⟩

end Sikkim
